import Mathlib

/-!
# xorm_mysql_generator: column mapper, struct renderer, table filter

A shallow embedding of `main.go`.  Go strings are modelled by `String`, that is
by the sequence of Unicode code points a valid UTF-8 Go string encodes.
`len(s)` is the UTF-8 byte length (`goLen`), while the padding of `fmt`'s
`%-*s` counts code points, as the `fmt` documentation states; a width above
`10^6` makes `fmt` write `%!(BADWIDTH)` and pad nothing.

The case tables of Go's `unicode` package outside ASCII are not part of the
repository; they are taken as a parameter (`UnicodeTables`).  The ASCII
behaviour of `unicode.ToLower`, `unicode.ToTitle` and of `strings.isSeparator`
is written out as in the Go library.
-/

namespace XormGen

/-! ## Go library functions used by `main.go` -/

/-- The tables of Go's `unicode` package for code points above `0x7F`:
lower-case and title-case mappings and the letter, digit and space classes. -/
structure UnicodeTables where
  lower : Char → Char
  title : Char → Char
  letter : Char → Bool
  digit : Char → Bool
  space : Char → Bool

/-- A sample table: identity mappings and empty classes outside ASCII. -/
def plainTables : UnicodeTables :=
  ⟨fun r => r, fun r => r, fun _ => false, fun _ => false, fun _ => false⟩

/-- Go `unicode.ToLower`: ASCII fast path, the table otherwise. -/
def unicodeToLower (U : UnicodeTables) (r : Char) : Char :=
  if r.toNat ≤ 0x7F then
    if 0x41 ≤ r.toNat ∧ r.toNat ≤ 0x5A then Char.ofNat (r.toNat + 0x20) else r
  else U.lower r

/-- Go `unicode.ToTitle`: ASCII fast path, the table otherwise. -/
def unicodeToTitle (U : UnicodeTables) (r : Char) : Char :=
  if r.toNat ≤ 0x7F then
    if 0x61 ≤ r.toNat ∧ r.toNat ≤ 0x7A then Char.ofNat (r.toNat - 0x20) else r
  else U.title r

/-- Go `strings.isSeparator`: ASCII alphanumerics and underscore are not
separators, every other ASCII code point is; above ASCII letters and digits are
not, and spaces are. -/
def isSeparator (U : UnicodeTables) (r : Char) : Bool :=
  if r.toNat ≤ 0x7F then
    if 0x30 ≤ r.toNat ∧ r.toNat ≤ 0x39 then false
    else if 0x61 ≤ r.toNat ∧ r.toNat ≤ 0x7A then false
    else if 0x41 ≤ r.toNat ∧ r.toNat ≤ 0x5A then false
    else if r.toNat = 0x5F then false
    else true
  else if U.letter r || U.digit r then false
  else U.space r

/-- Go `strings.ToLower`: every code point mapped by `unicode.ToLower`. -/
def ToLower (U : UnicodeTables) (s : String) : String :=
  ⟨s.data.map (unicodeToLower U)⟩

/-- The mapping closure of Go `strings.Title`, with its captured variable
`prev` made explicit: a code point that follows a separator is title-cased,
and `prev` becomes the code point just read. -/
def titleAux (U : UnicodeTables) : Char → List Char → List Char
  | _, [] => []
  | prev, r :: rs =>
    (if isSeparator U prev then unicodeToTitle U r else r) :: titleAux U r rs

/-- Go `strings.Title`; `prev` starts as a space. -/
def Title (U : UnicodeTables) (s : String) : String :=
  ⟨titleAux U ' ' s.data⟩

/-- Scan of Go `strings.Replace(s, old, new, -1)` for a non-empty `old`:
`skip` counts the code points of a match still to be dropped. -/
def replaceAux (old new : List Char) : Nat → List Char → List Char
  | _, [] => []
  | skip + 1, _ :: cs => replaceAux old new skip cs
  | 0, c :: cs =>
    if old.isPrefixOf (c :: cs) then new ++ replaceAux old new (old.length - 1) cs
    else c :: replaceAux old new 0 cs

/-- Go `strings.Replace(s, old, new, -1)`, for a non-empty `old`. -/
def Replace (s old new : String) : String :=
  ⟨replaceAux old.data new.data 0 s.data⟩

/-- Go `strings.HasPrefix`. -/
def HasPrefix (s pfx : String) : Bool :=
  pfx.data.isPrefixOf s.data

/-- Scan of Go `strings.Contains`: some suffix of the text starts with `sub`. -/
def containsAux (sub : List Char) : List Char → Bool
  | [] => sub.isPrefixOf []
  | c :: cs => sub.isPrefixOf (c :: cs) || containsAux sub cs

/-- Go `strings.Contains`. -/
def Contains (s substr : String) : Bool :=
  containsAux substr.data s.data

/-- Go `strings.Join`. -/
def Join : List String → String → String
  | [], _ => ""
  | [a], _ => a
  | a :: b :: rest, sep => a ++ sep ++ Join (b :: rest) sep

/-- Go `utf8.RuneLen` for a valid code point. -/
def runeLen (r : Char) : Nat :=
  if r.toNat < 0x80 then 1
  else if r.toNat < 0x800 then 2
  else if r.toNat < 0x10000 then 3
  else 4

/-- Go `len(s)`: the number of bytes of the UTF-8 encoding. -/
def goLen (s : String) : Nat :=
  (s.data.map runeLen).sum

/-- The verb `%-*s` of Go `fmt` with the width argument `w` and the string `s`.
A width above `10^6` is refused (`tooLarge` in `fmt`): `%!(BADWIDTH)` is
written and `s` follows without padding.  Otherwise `s` is followed by spaces
up to `w` code points. -/
def padRight (w : Nat) (s : String) : String :=
  if 1000000 < w then "%!(BADWIDTH)" ++ s
  else s ++ ⟨List.replicate (w - s.length) ' '⟩

/-! ## `main.go` -/

/-- Go `ToCamelCase` (main.go 23-29). -/
def ToCamelCase (U : UnicodeTables) (underscore : String) : String :=
  let s := ToLower U underscore
  let s := Replace s "_" " "
  let s := Title U s
  let s := Replace s " " ""
  s

/-- A row of `desc <table>`: Go `map[string][]byte`, as a list of entries. -/
abbrev Column := List (String × String)

/-- Go `string(column[key])`: the empty string when the key is missing. -/
def colGet (column : Column) (key : String) : String :=
  (column.lookup key).getD ""

/-- The table `prefixMap` of `ParseColumn` (main.go 44-59). -/
def prefixMap : List (String × String) :=
  [("int", "int"), ("smallint", "int"), ("bigint", "int64"), ("float", "float32"),
   ("double", "float64"), ("char", "string"), ("blob", "[]uint8"), ("varchar", "string"),
   ("text", "string"), ("bool", "bool"), ("timestamp", "time.Time"), ("date", "time.Time"),
   ("datetime", "time.Time"), ("enum", "string")]

/-- The prefix scan of `ParseColumn` (main.go 62-72): the pair
`(sql_type, go_type)` of the first entry whose prefix starts `tp`, and
`("varchar", "string")` when the loop ends without a match. -/
def scanPrefix (tp : String) : List (String × String) → String × String
  | [] => ("varchar", "string")
  | item :: rest => if HasPrefix tp item.1 then (item.1, item.2) else scanPrefix tp rest

/-- Tag of the `switch` on `column["Key"]` (main.go 76-83). -/
def keyTags (key : String) : List String :=
  if key = "PRI" then ["pk"]
  else if key = "UNI" then ["unique"]
  else if key = "MUL" then ["index"]
  else []

/-- Tag of the type class (main.go 85-87): the lower-cased type string `tp`
itself when the class is `char` or `varchar`. -/
def typeTags (sql_type tp : String) : List String :=
  if sql_type = "char" ∨ sql_type = "varchar" then [tp] else []

/-- Tag of `column["Extra"]` (main.go 89-92). -/
def extraTags (extra : String) : List String :=
  if Contains extra "auto_increment" then ["autoincr"] else []

/-- Tag of `column["Null"]` (main.go 94-95). -/
def nullTags (null : String) : List String :=
  if null = "NO" then ["notnull"] else []

/-- The target type after the nullability step (main.go 94-100). -/
def widenType (null go_type : String) : String :=
  if null = "NO" then go_type
  else if go_type = "string" then "sql.NullString" else go_type

/-- Tag of `column["Default"]` (main.go 102-108); `go_type` is the type after
the nullability step. -/
def defaultTags (default_value go_type : String) : List String :=
  if default_value ≠ "" then
    let default_value :=
      if go_type = "string" ∨ go_type = "sql.NullString" then "'" ++ default_value ++ "'"
      else default_value
    ["default(" ++ default_value ++ ")"]
  else []

/-- Tags of the field name (main.go 110-120). -/
def nameTags (field : String) : List String :=
  (if field = "CreatedAt" then ["created"] else [])
    ++ (if field = "UpdatedAt" then ["updated"] else [])
    ++ (if field = "DeletedAt" then ["deleted"] else [])

/-- The lower-cased type string `tp` of a column (main.go 61). -/
def columnTp (U : UnicodeTables) (column : Column) : String :=
  ToLower U (colGet column "Type")

/-- The pair `(sql_type, go_type)` the prefix scan selects for a column. -/
def resolveType (U : UnicodeTables) (column : Column) : String × String :=
  scanPrefix (columnTp U column) prefixMap

/-- The final `go_type` of `ParseColumn`. -/
def columnGoType (U : UnicodeTables) (column : Column) : String :=
  widenType (colGet column "Null") (resolveType U column).2

/-- The slice `tags` of `ParseColumn` when it reaches line 122: the appends
of main.go 76-120, in their order. -/
def columnTags (U : UnicodeTables) (column : Column) : List String :=
  keyTags (colGet column "Key")
    ++ typeTags (resolveType U column).1 (columnTp U column)
    ++ extraTags (colGet column "Extra")
    ++ nullTags (colGet column "Null")
    ++ defaultTags (colGet column "Default") (columnGoType U column)
    ++ nameTags (ToCamelCase U (colGet column "Field"))

/-- The string `tag` of `ParseColumn` (main.go 122-125). -/
def renderTag (tags : List String) : String :=
  if tags.length > 0 then "`orm:\"" ++ Join tags " " ++ "\"`" else ""

/-- Go `ParseColumn` (main.go 41-128): the slice `{field, go_type, tag}`. -/
def ParseColumn (U : UnicodeTables) (column : Column) : List String :=
  [ToCamelCase U (colGet column "Field"), columnGoType U column, renderTag (columnTags U column)]

/-- The inner loop of `TableToStruct` (main.go 141-145) from index `i` on:
`maxlen[i]` is raised to `len(v)`; `none` when `maxlen[i]` is out of range. -/
def updateMaxlen : List Nat → Nat → List String → Option (List Nat)
  | maxlen, _, [] => some maxlen
  | maxlen, i, v :: rest =>
    match maxlen[i]? with
    | none => none
    | some m => updateMaxlen (if m < goLen v then maxlen.set i (goLen v) else maxlen) (i + 1) rest

/-- The first loop of `TableToStruct` (main.go 139-147) over the rows of the
query, from the state `(columns, maxlen)`. -/
def scanResults (U : UnicodeTables) :
    List Column → List (List String) × List Nat → Option (List (List String) × List Nat)
  | [], state => some state
  | column :: rest, state =>
    match updateMaxlen state.2 0 (ParseColumn U column) with
    | none => none
    | some maxlen => scanResults U rest (state.1 ++ [ParseColumn U column], maxlen)

/-- The `Sprintf` of main.go 150; `none` when an index is out of range. -/
def formatLine (maxlen : List Nat) (column : List String) : Option String :=
  match maxlen[0]?, column[0]?, maxlen[1]?, column[1]?, maxlen[2]?, column[2]? with
  | some w0, some c0, some w1, some c1, some w2, some c2 =>
    some ("    " ++ padRight w0 c0 ++ " " ++ padRight w1 c1 ++ " " ++ padRight w2 c2 ++ "\n")
  | _, _, _, _, _, _ => none

/-- The second loop of `TableToStruct` (main.go 149-151), appending to `code`. -/
def renderLines (maxlen : List Nat) : List (List String) → String → Option String
  | [], code => some code
  | column :: rest, code =>
    match formatLine maxlen column with
    | none => none
    | some line => renderLines maxlen rest (code ++ line)

/-- Go `TableToStruct` (main.go 130-154), given the rows `results` the query
`desc <TableName>` returned; `none` stands for an index-out-of-range panic. -/
def TableToStruct (U : UnicodeTables) (TableName : String) (results : List Column) :
    Option String :=
  let code := "type " ++ ToCamelCase U TableName ++ " struct \x7b\n"
  match scanResults U results ([], [0, 0, 0]) with
  | none => none
  | some state =>
    match renderLines state.2 state.1 code with
    | none => none
    | some code => some (code ++ "\x7d\n")

/-- The loop of `ShouldGenerate` (main.go 160-165). -/
def matchesAny (table : String) : List String → Bool
  | [] => false
  | t :: rest => if table = t then true else matchesAny table rest

/-- Go `ShouldGenerate` (main.go 156-166). -/
def ShouldGenerate (tables : List String) (table : String) : Bool :=
  if tables.length = 0 then true else matchesAny table tables

/-- The string `section_import` of `DbGenerator` (main.go 205-208). -/
def sectionImport (code : String) : String :=
  if Contains code "sql.NullString" then "import \"database/sql\"\n\n" else ""

/-- The content `DbGenerator` writes for one selected table (main.go 201-210),
given the package name and the rows of `desc <TableName>`. -/
def fileContent (U : UnicodeTables) (package_name TableName : String) (results : List Column) :
    Option String :=
  match TableToStruct U TableName results with
  | none => none
  | some code => some ("package " ++ package_name ++ "\n\n" ++ sectionImport code ++ code)

/-! ## Sample records -/

/-- An auto-increment primary key `id int(11) NOT NULL`. -/
def idColumn : Column :=
  [("Field", "id"), ("Type", "int(11)"), ("Null", "NO"), ("Key", "PRI"), ("Default", ""),
   ("Extra", "auto_increment")]

/-- A nullable `email varchar(255)` without key, default or extra flag. -/
def emailColumn : Column :=
  [("Field", "email"), ("Type", "varchar(255)"), ("Null", "YES"), ("Key", ""), ("Default", ""),
   ("Extra", "")]

/-- A `NOT NULL` column `age int(11)` with default `18`. -/
def ageColumn : Column :=
  [("Field", "age"), ("Type", "int(11)"), ("Null", "NO"), ("Key", ""), ("Default", "18"),
   ("Extra", "")]

/-- A nullable `bio text` with default `n/a`. -/
def bioColumn : Column :=
  [("Field", "bio"), ("Type", "text"), ("Null", "YES"), ("Key", ""), ("Default", "n/a"),
   ("Extra", "")]

/-- A nullable `created_at datetime` without key, default or extra flag. -/
def createdAtColumn : Column :=
  [("Field", "created_at"), ("Type", "datetime"), ("Null", "YES"), ("Key", ""), ("Default", ""),
   ("Extra", "")]

/-- A `NOT NULL` column `nick varchar(32)` with the default value `sql.NullString`. -/
def nickColumn : Column :=
  [("Field", "nick"), ("Type", "varchar(32)"), ("Null", "NO"), ("Key", ""),
   ("Default", "sql.NullString"), ("Extra", "")]

/-! ## Definitions for the identifier-casing claim -/

/-- A word lower-cased, then its first character upper-cased. -/
def capitalizeWord (w : String) : String :=
  match w.data.map Char.toLower with
  | [] => ""
  | c :: cs => ⟨c.toUpper :: cs⟩

/-- The concatenation of the capitalised words. -/
def camelWords : List String → String
  | [] => ""
  | w :: ws => capitalizeWord w ++ camelWords ws

/-- The facts on one ASCII letter or digit, checked code point by code point. -/
def alnumFacts (c : Char) : Prop :=
  c.isAlphanum = true →
    unicodeToLower plainTables c = c.toLower
    ∧ c.toLower ≠ '_' ∧ c.toLower ≠ ' ' ∧ c.toLower.toUpper ≠ ' ' ∧ c.toLower.toUpper ≠ '_'
    ∧ c.toLower.toNat < 128
    ∧ isSeparator plainTables c.toLower = false
    ∧ unicodeToTitle plainTables c.toLower = c.toLower.toUpper

/-- The facts on one code point can be evaluated. -/
instance alnumFactsDecidable (c : Char) : Decidable (alnumFacts c) := by
  unfold alnumFacts; infer_instance

/-- The code points `Title` reads in `ToCamelCase`: lower-cased, underscores
turned into spaces. -/
def spaced (U : UnicodeTables) (c : Char) : Char :=
  if unicodeToLower U c = '_' then ' ' else unicodeToLower U c

/-- The steps of `ToCamelCase` on code points, `Title` starting from `prev`. -/
def camelFrom (U : UnicodeTables) (prev : Char) (l : List Char) : List Char :=
  (titleAux U prev (l.map (spaced U))).filter (fun c => decide (c ≠ ' '))

/-- `Title` on a lower-cased word read after `prev`. -/
def titleWord (U : UnicodeTables) (prev : Char) (w : List Char) : List Char :=
  titleAux U prev (w.map Char.toLower)

/-! ## Definitions for the renderer claims -/

/-- The `i`-th string `ParseColumn` returns for a row. -/
def cell (U : UnicodeTables) (i : Nat) (column : Column) : String :=
  (ParseColumn U column).getD i ""

/-- The width of column `i` of a table: the largest `len` of the `i`-th string
over all rows, `0` for a table without rows. -/
def columnWidth (U : UnicodeTables) (results : List Column) (i : Nat) : Nat :=
  (results.map (fun column => goLen (cell U i column))).foldr max 0

/-- The field line of a row: name, type and tag, each padded to the width of
its column in the table. -/
def alignedLine (U : UnicodeTables) (results : List Column) (column : Column) : String :=
  "    " ++ padRight (columnWidth U results 0) (cell U 0 column)
    ++ " " ++ padRight (columnWidth U results 1) (cell U 1 column)
    ++ " " ++ padRight (columnWidth U results 2) (cell U 2 column) ++ "\n"

/-! ## Definitions for the claims on the prefix table and on letter case -/

/-- A `NOT NULL` column `total bigint(20)`. -/
def bigintColumn : Column :=
  [("Field", "total"), ("Type", "bigint(20)"), ("Null", "NO"), ("Key", ""), ("Default", ""),
   ("Extra", "")]

/-- A `NOT NULL` column `active tinyint(1)` with default `1`. -/
def tinyintColumn : Column :=
  [("Field", "active"), ("Type", "tinyint(1)"), ("Null", "NO"), ("Key", ""), ("Default", "1"),
   ("Extra", "")]

/-- Go `unicode.ToUpper`: ASCII fast path, the upper-case table `upper` of the
`unicode` package otherwise. -/
def unicodeToUpper (upper : Char → Char) (r : Char) : Char :=
  if r.toNat ≤ 0x7F then
    if 0x61 ≤ r.toNat ∧ r.toNat ≤ 0x7A then Char.ofNat (r.toNat - 0x20) else r
  else upper r

/-- Go `strings.ToUpper`, the upper-cased form of a string: every code point
mapped by `unicode.ToUpper`.  `main.go` does not call it. -/
def ToUpper (upper : Char → Char) (s : String) : String :=
  ⟨s.data.map (unicodeToUpper upper)⟩

/-- The record `column` with its `Type` entry replaced by `t`. -/
def setType (column : Column) (t : String) : Column :=
  ("Type", t) :: column

/-- A nullable column `flags set('ı','b')`; the first member is U+0131,
the dotless i. -/
def dotlessColumn : Column :=
  [("Field", "flags"), ("Type", "set('ı','b')"), ("Null", "YES"), ("Key", ""),
   ("Default", ""), ("Extra", "")]

/-- An upper-case table that agrees with Unicode at U+0131, whose upper case is
`I`, and is the identity elsewhere. -/
def dotlessUpper : Char → Char :=
  fun r => if r = 'ı' then 'I' else r

/-- `ParseColumn` (main.go 41-128) with the table of the prefix scan as an
argument; `ParseColumnWith prefixMap` is `ParseColumn`. -/
def ParseColumnWith (table : List (String × String)) (U : UnicodeTables) (column : Column) :
    List String :=
  let tp := columnTp U column
  let sql_type := (scanPrefix tp table).1
  let go_type := widenType (colGet column "Null") (scanPrefix tp table).2
  [ToCamelCase U (colGet column "Field"), go_type,
    renderTag (keyTags (colGet column "Key")
      ++ typeTags sql_type tp
      ++ extraTags (colGet column "Extra")
      ++ nullTags (colGet column "Null")
      ++ defaultTags (colGet column "Default") go_type
      ++ nameTags (ToCamelCase U (colGet column "Field")))]

/-! ## Records for the limits of the renderer and for the default examples -/

/-- A default value of 1,000,001 digits `1`. -/
def hugeDefault : String :=
  ⟨List.replicate 1000001 '1'⟩

/-- The tag of a nullable `int` column whose default is `hugeDefault`. -/
def hugeTag : String :=
  "`orm:\"default(" ++ hugeDefault ++ ")\"`"

/-- A nullable column `a int` whose default is `hugeDefault`. -/
def hugeColumn : Column :=
  [("Field", "a"), ("Type", "int"), ("Null", "YES"), ("Key", ""), ("Default", hugeDefault),
   ("Extra", "")]

/-- A nullable column `b int` without key, default or extra flag. -/
def smallColumn : Column :=
  [("Field", "b"), ("Type", "int"), ("Null", "YES"), ("Key", ""), ("Default", ""),
   ("Extra", "")]

/-- A nullable column `note text` whose default holds a newline. -/
def newlineColumn : Column :=
  [("Field", "note"), ("Type", "text"), ("Null", "YES"), ("Key", ""), ("Default", "a\nb"),
   ("Extra", "")]

/-- A nullable column `created_at int(11)` with default `0`, no key and no
extra flag. -/
def createdIntColumn : Column :=
  [("Field", "created_at"), ("Type", "int(11)"), ("Null", "YES"), ("Key", ""),
   ("Default", "0"), ("Extra", "")]

/-- A nullable column `updated_at text` with default `x`, no key and no extra
flag. -/
def updatedTextColumn : Column :=
  [("Field", "updated_at"), ("Type", "text"), ("Null", "YES"), ("Key", ""),
   ("Default", "x"), ("Extra", "")]

/-! ## Lemmas on the prefix scan -/

theorem scanPrefix_mem (tp : String) (table : List (String × String)) :
    scanPrefix tp table = ("varchar", "string") ∨ scanPrefix tp table ∈ table := by
  induction table with
  | nil => exact Or.inl rfl
  | cons item rest ih =>
    simp only [scanPrefix]
    split_ifs
    · exact Or.inr (List.mem_cons_self _ _)
    · exact ih.imp id (List.mem_cons_of_mem _)

theorem prefixMap_forall (P : String × String → Prop) (hd : P ("varchar", "string"))
    (ht : ∀ item ∈ prefixMap, P item) (tp : String) : P (scanPrefix tp prefixMap) := by
  rcases scanPrefix_mem tp prefixMap with h | h
  · rw [h]; exact hd
  · exact ht _ h

theorem scanPrefix_range (tp : String) :
    (scanPrefix tp prefixMap).2 ∈
      ["int", "int64", "float32", "float64", "string", "[]uint8", "bool", "time.Time"] := by
  apply prefixMap_forall (fun item => item.2 ∈
      ["int", "int64", "float32", "float64", "string", "[]uint8", "bool", "time.Time"])
  · decide
  · decide

theorem scanPrefix_class (tp : String)
    (h : (scanPrefix tp prefixMap).1 = "char" ∨ (scanPrefix tp prefixMap).1 = "varchar") :
    (scanPrefix tp prefixMap).2 = "string" := by
  revert h
  apply prefixMap_forall (fun item => item.1 = "char" ∨ item.1 = "varchar" → item.2 = "string")
  · decide
  · decide

theorem scanPrefix_ne_nullString (tp : String) :
    (scanPrefix tp prefixMap).2 ≠ "sql.NullString" := by
  apply prefixMap_forall (fun item => item.2 ≠ "sql.NullString")
  · decide
  · decide

/-- Two prefixes of one string are comparable: a string that starts with `p`
does not start with `q` when neither of `p`, `q` starts with the other. -/
theorem HasPrefix_excludes (tp p q : String) (hp : HasPrefix tp p = true)
    (hqp : HasPrefix p q = false) (hpq : HasPrefix q p = false) : HasPrefix tp q = false := by
  cases hq : HasPrefix tp q with
  | false => rfl
  | true =>
    simp only [HasPrefix, List.isPrefixOf_iff_prefix] at hp hq
    rcases List.prefix_or_prefix_of_prefix hp hq with h | h
    · have : HasPrefix q p = true := by simpa only [HasPrefix, List.isPrefixOf_iff_prefix] using h
      simp [this] at hpq
    · have : HasPrefix p q = true := by simpa only [HasPrefix, List.isPrefixOf_iff_prefix] using h
      simp [this] at hqp

theorem HasPrefix_trans (tp p q : String) (hp : HasPrefix tp p = true)
    (hq : HasPrefix p q = true) : HasPrefix tp q = true := by
  simp only [HasPrefix, List.isPrefixOf_iff_prefix] at *
  exact List.IsPrefix.trans hq hp

theorem scanPrefix_int (tp : String) (h : HasPrefix tp "int" = true) :
    scanPrefix tp prefixMap = ("int", "int") := by
  simp [scanPrefix, prefixMap, h]

theorem scanPrefix_text (tp : String) (h : HasPrefix tp "text" = true) :
    scanPrefix tp prefixMap = ("text", "string") := by
  have e := fun q h1 h2 => HasPrefix_excludes tp "text" q h h1 h2
  simp [scanPrefix, prefixMap, h, e "int" (by decide) (by decide),
    e "smallint" (by decide) (by decide), e "bigint" (by decide) (by decide),
    e "float" (by decide) (by decide), e "double" (by decide) (by decide),
    e "char" (by decide) (by decide), e "blob" (by decide) (by decide),
    e "varchar" (by decide) (by decide)]

theorem scanPrefix_timestamp (tp : String) (h : HasPrefix tp "timestamp" = true) :
    scanPrefix tp prefixMap = ("timestamp", "time.Time") := by
  have e := fun q h1 h2 => HasPrefix_excludes tp "timestamp" q h h1 h2
  simp [scanPrefix, prefixMap, h, e "int" (by decide) (by decide),
    e "smallint" (by decide) (by decide), e "bigint" (by decide) (by decide),
    e "float" (by decide) (by decide), e "double" (by decide) (by decide),
    e "char" (by decide) (by decide), e "blob" (by decide) (by decide),
    e "varchar" (by decide) (by decide), e "text" (by decide) (by decide),
    e "bool" (by decide) (by decide)]

theorem scanPrefix_date (tp : String) (h : HasPrefix tp "date" = true) :
    scanPrefix tp prefixMap = ("date", "time.Time") := by
  have e := fun q h1 h2 => HasPrefix_excludes tp "date" q h h1 h2
  simp [scanPrefix, prefixMap, h, e "int" (by decide) (by decide),
    e "smallint" (by decide) (by decide), e "bigint" (by decide) (by decide),
    e "float" (by decide) (by decide), e "double" (by decide) (by decide),
    e "char" (by decide) (by decide), e "blob" (by decide) (by decide),
    e "varchar" (by decide) (by decide), e "text" (by decide) (by decide),
    e "bool" (by decide) (by decide), e "timestamp" (by decide) (by decide)]

/-- A type that starts with `datetime`, `date` or `timestamp` resolves to
`time.Time` under a class that is neither `char` nor `varchar`. -/
theorem scanPrefix_time (tp : String)
    (h : HasPrefix tp "datetime" = true ∨ HasPrefix tp "date" = true
      ∨ HasPrefix tp "timestamp" = true) :
    (scanPrefix tp prefixMap).2 = "time.Time"
      ∧ typeTags (scanPrefix tp prefixMap).1 tp = [] := by
  rcases h with h | h | h
  · rw [scanPrefix_date tp (HasPrefix_trans tp "datetime" "date" h (by decide))]
    exact ⟨rfl, by simp [typeTags]⟩
  · rw [scanPrefix_date tp h]
    exact ⟨rfl, by simp [typeTags]⟩
  · rw [scanPrefix_timestamp tp h]
    exact ⟨rfl, by simp [typeTags]⟩

/-! ## The column mapper -/

/-- C1: a `PRI`, `NOT NULL`, auto-increment column with an empty default, a
type whose lower-cased form starts with `int` and a name that camel-cases to
none of `CreatedAt`, `UpdatedAt`, `DeletedAt` is mapped to the type `int` with
the annotation `orm:"pk autoincr notnull"` between back-quotes: key tag first,
then `autoincr`, then `notnull`. -/
theorem ParseColumn_pk_autoincr (U : UnicodeTables) (column : Column)
    (hKey : colGet column "Key" = "PRI") (hNull : colGet column "Null" = "NO")
    (hExtra : Contains (colGet column "Extra") "auto_increment" = true)
    (hDefault : colGet column "Default" = "")
    (hType : HasPrefix (ToLower U (colGet column "Type")) "int" = true)
    (hField : ToCamelCase U (colGet column "Field") ≠ "CreatedAt"
      ∧ ToCamelCase U (colGet column "Field") ≠ "UpdatedAt"
      ∧ ToCamelCase U (colGet column "Field") ≠ "DeletedAt") :
    ParseColumn U column
      = [ToCamelCase U (colGet column "Field"), "int", "`orm:\"pk autoincr notnull\"`"] := by
  have hs := scanPrefix_int _ hType
  simp [ParseColumn, columnGoType, columnTags, resolveType, columnTp, hs, widenType, hNull,
    keyTags, hKey, typeTags, extraTags, hExtra, nullTags, defaultTags, hDefault, nameTags,
    hField.1, hField.2.1, hField.2.2, renderTag, Join]

/-- C1 at `id int(11) NOT NULL AUTO_INCREMENT PRIMARY KEY`. -/
theorem ParseColumn_pk_autoincr_witness :
    ParseColumn plainTables idColumn = ["Id", "int", "`orm:\"pk autoincr notnull\"`"] :=
  ParseColumn_pk_autoincr plainTables idColumn (by decide) (by decide) (by decide) (by decide)
    (by decide) (by decide)

/-- C2 as stated fails: the nullable `email varchar(255)` column gets the tag
`varchar(255)`, the lower-cased type string, not the class label `varchar`;
this holds whatever the case tables are. -/
theorem ParseColumn_varchar_label_counterexample :
    (colGet emailColumn "Null" ≠ "NO"
      ∧ (∀ U : UnicodeTables, (resolveType U emailColumn).1 = "varchar")
      ∧ keyTags (colGet emailColumn "Key") = []
      ∧ Contains (colGet emailColumn "Extra") "auto_increment" = false
      ∧ colGet emailColumn "Default" = "")
    ∧ (∀ U : UnicodeTables, ParseColumn U emailColumn
        = ["Email", "sql.NullString", "`orm:\"varchar(255)\"`"])
    ∧ ¬ ∃ U : UnicodeTables, ParseColumn U emailColumn
        = ["Email", "sql.NullString", "`orm:\"varchar\"`"] := by
  refine ⟨⟨by decide, fun U => rfl, by decide, by decide, by decide⟩, fun U => rfl, ?_⟩
  rintro ⟨U, h⟩
  have e : ParseColumn U emailColumn
      = ["Email", "sql.NullString", "`orm:\"varchar(255)\"`"] := rfl
  rw [e] at h
  exact absurd h (by decide)

/-- C2, amended: a nullable column of class `char` or `varchar` with no key
tag, no `auto_increment`, an empty default and a name that earns no name-based
tag is mapped to `sql.NullString`, and its only tag is its own lower-cased
type string (`varchar(255)` for a `varchar(255)` column). -/
theorem ParseColumn_nullable_char (U : UnicodeTables) (column : Column)
    (hNull : colGet column "Null" ≠ "NO")
    (hClass : (resolveType U column).1 = "char" ∨ (resolveType U column).1 = "varchar")
    (hKey : colGet column "Key" ≠ "PRI" ∧ colGet column "Key" ≠ "UNI"
      ∧ colGet column "Key" ≠ "MUL")
    (hExtra : Contains (colGet column "Extra") "auto_increment" = false)
    (hDefault : colGet column "Default" = "")
    (hField : ToCamelCase U (colGet column "Field") ≠ "CreatedAt"
      ∧ ToCamelCase U (colGet column "Field") ≠ "UpdatedAt"
      ∧ ToCamelCase U (colGet column "Field") ≠ "DeletedAt") :
    ParseColumn U column
      = [ToCamelCase U (colGet column "Field"), "sql.NullString",
          "`orm:\"" ++ ToLower U (colGet column "Type") ++ "\"`"] := by
  have hs : (resolveType U column).2 = "string" := scanPrefix_class _ hClass
  simp [ParseColumn, columnGoType, columnTags, hs, widenType, hNull, keyTags, hKey.1, hKey.2.1,
    hKey.2.2, typeTags, hClass, extraTags, hExtra, nullTags, defaultTags, hDefault, nameTags,
    hField.1, hField.2.1, hField.2.2, renderTag, Join, columnTp]

/-- C2, amended, at the nullable `email varchar(255)`. -/
theorem ParseColumn_nullable_char_witness :
    ParseColumn plainTables emailColumn
      = ["Email", "sql.NullString", "`orm:\"varchar(255)\"`"] :=
  ParseColumn_nullable_char plainTables emailColumn (by decide) (by decide) (by decide)
    (by decide) (by decide) (by decide)

/-- C3: the result type is `sql.NullString` exactly when `Null` is not `NO`
and the prefix scan resolved to `string`; it is never `string` for a nullable
column; for `Null = NO` it is the resolved type and `notnull` is appended
after the key, type and `autoincr` tags; a resolved type other than `string`
(one of `int`, `int64`, `float32`, `float64`, `[]uint8`, `bool`, `time.Time`)
is returned unchanged whatever `Null` is. -/
theorem ParseColumn_nullability (U : UnicodeTables) (column : Column) :
    ((ParseColumn U column)[1]? = some "sql.NullString"
        ↔ colGet column "Null" ≠ "NO" ∧ (resolveType U column).2 = "string")
    ∧ (colGet column "Null" ≠ "NO" → (ParseColumn U column)[1]? ≠ some "string")
    ∧ (colGet column "Null" = "NO" →
        (ParseColumn U column)[1]? = some (resolveType U column).2
        ∧ (ParseColumn U column)[2]? = some ("`orm:\"" ++ Join
            (keyTags (colGet column "Key")
              ++ typeTags (resolveType U column).1 (columnTp U column)
              ++ extraTags (colGet column "Extra")
              ++ ["notnull"]
              ++ defaultTags (colGet column "Default") (resolveType U column).2
              ++ nameTags (ToCamelCase U (colGet column "Field"))) " " ++ "\"`"))
    ∧ ((resolveType U column).2 ≠ "string" →
        (ParseColumn U column)[1]? = some (resolveType U column).2)
    ∧ (resolveType U column).2
        ∈ ["int", "int64", "float32", "float64", "string", "[]uint8", "bool", "time.Time"] := by
  have hne : (resolveType U column).2 ≠ "sql.NullString" := scanPrefix_ne_nullString _
  refine ⟨?_, ?_, ?_, ?_, scanPrefix_range _⟩
  · by_cases hN : colGet column "Null" = "NO"
    · simp [ParseColumn, columnGoType, widenType, hN, hne]
    · by_cases hS : (resolveType U column).2 = "string"
      · simp [ParseColumn, columnGoType, widenType, hN, hS]
      · simp [ParseColumn, columnGoType, widenType, hN, hS, hne]
  · intro hN
    by_cases hS : (resolveType U column).2 = "string"
    · simp [ParseColumn, columnGoType, widenType, hN, hS]
    · simp [ParseColumn, columnGoType, widenType, hN, hS]
  · intro hN
    simp [ParseColumn, columnGoType, columnTags, widenType, nullTags, hN, renderTag]
  · intro hS
    by_cases hN : colGet column "Null" = "NO"
    · simp [ParseColumn, columnGoType, widenType, hN]
    · simp [ParseColumn, columnGoType, widenType, hN, hS]

/-- The default tag: `"default(" ++ ("'" ++ v ++ "'") ++ ")"` is `default('v')`. -/
theorem default_quoted (v : String) :
    "default(" ++ ("'" ++ v ++ "'") ++ ")" = "default('" ++ v ++ "')" := by
  apply String.ext
  simp [String.data_append]

/-- C4 as stated fails in its examples: the nullable keyless column
`created_at int(11)` with default `0` gets `orm:"default(0) created"`, not
`orm:"default(0)"`, and the nullable keyless `updated_at text` with default
`x` gets `orm:"default('x') updated"`; this holds whatever the case tables
are. -/
theorem ParseColumn_default_counterexample :
    (colGet createdIntColumn "Null" ≠ "NO"
      ∧ keyTags (colGet createdIntColumn "Key") = []
      ∧ colGet createdIntColumn "Default" = "0"
      ∧ ∀ U : UnicodeTables, HasPrefix (columnTp U createdIntColumn) "int" = true)
    ∧ (∀ U : UnicodeTables, ParseColumn U createdIntColumn
        = ["CreatedAt", "int", "`orm:\"default(0) created\"`"])
    ∧ (¬ ∃ U : UnicodeTables, (ParseColumn U createdIntColumn)[2]?
        = some "`orm:\"default(0)\"`")
    ∧ (colGet updatedTextColumn "Null" ≠ "NO"
      ∧ keyTags (colGet updatedTextColumn "Key") = []
      ∧ colGet updatedTextColumn "Default" = "x"
      ∧ ∀ U : UnicodeTables, HasPrefix (columnTp U updatedTextColumn) "text" = true)
    ∧ (∀ U : UnicodeTables, ParseColumn U updatedTextColumn
        = ["UpdatedAt", "sql.NullString", "`orm:\"default('x') updated\"`"])
    ∧ (¬ ∃ U : UnicodeTables, (ParseColumn U updatedTextColumn)[2]?
        = some "`orm:\"default('x')\"`") := by
  have hc : ∀ U : UnicodeTables, ParseColumn U createdIntColumn
      = ["CreatedAt", "int", "`orm:\"default(0) created\"`"] := fun U => rfl
  have hu : ∀ U : UnicodeTables, ParseColumn U updatedTextColumn
      = ["UpdatedAt", "sql.NullString", "`orm:\"default('x') updated\"`"] := fun U => rfl
  refine ⟨⟨by decide, by decide, by decide, fun U => rfl⟩, hc, ?_,
    ⟨by decide, by decide, by decide, fun U => rfl⟩, hu, ?_⟩
  · rintro ⟨U, h⟩
    rw [hc U] at h
    exact absurd h (by decide)
  · rintro ⟨U, h⟩
    rw [hu U] at h
    exact absurd h (by decide)

/-- C4, amended: a non-empty `Default` v adds exactly one tag after the key,
type, `autoincr` and `notnull` tags and before the name-based tags:
`default('v')` when the final type is `string` or `sql.NullString`,
`default(v)` otherwise; an empty `Default` adds none.  A nullable `int` column
without key tag, without `auto_increment` and with a name that earns no
name-based tag gets exactly `orm:"default(v)"`, a nullable `text` column of
that kind `sql.NullString` and `orm:"default('v')"`. -/
theorem ParseColumn_default (U : UnicodeTables) (column : Column) :
    (ParseColumn U column)[1]? = some (columnGoType U column)
    ∧ (colGet column "Default" ≠ "" →
        (ParseColumn U column)[2]? = some ("`orm:\"" ++ Join
          (keyTags (colGet column "Key")
            ++ typeTags (resolveType U column).1 (columnTp U column)
            ++ extraTags (colGet column "Extra")
            ++ nullTags (colGet column "Null")
            ++ [if columnGoType U column = "string" ∨ columnGoType U column = "sql.NullString"
                then "default('" ++ colGet column "Default" ++ "')"
                else "default(" ++ colGet column "Default" ++ ")"]
            ++ nameTags (ToCamelCase U (colGet column "Field"))) " " ++ "\"`"))
    ∧ (colGet column "Default" = "" →
        (ParseColumn U column)[2]? = some (renderTag
          (keyTags (colGet column "Key")
            ++ typeTags (resolveType U column).1 (columnTp U column)
            ++ extraTags (colGet column "Extra")
            ++ nullTags (colGet column "Null")
            ++ nameTags (ToCamelCase U (colGet column "Field")))))
    ∧ (colGet column "Default" ≠ "" → colGet column "Null" ≠ "NO" →
        keyTags (colGet column "Key") = [] → extraTags (colGet column "Extra") = [] →
        nameTags (ToCamelCase U (colGet column "Field")) = [] →
        (HasPrefix (columnTp U column) "int" = true →
          ParseColumn U column = [ToCamelCase U (colGet column "Field"), "int",
            "`orm:\"default(" ++ colGet column "Default" ++ ")\"`"])
        ∧ (HasPrefix (columnTp U column) "text" = true →
          ParseColumn U column = [ToCamelCase U (colGet column "Field"), "sql.NullString",
            "`orm:\"default('" ++ colGet column "Default" ++ "')\"`"])) := by
  refine ⟨rfl, ?_, ?_, ?_⟩
  · intro hD
    by_cases hT : columnGoType U column = "string" ∨ columnGoType U column = "sql.NullString"
    · simp [ParseColumn, columnTags, defaultTags, hD, hT, renderTag, default_quoted]
    · simp [ParseColumn, columnTags, defaultTags, hD, hT, renderTag]
  · intro hD
    simp [ParseColumn, columnTags, defaultTags, hD]
  · intro hD hN hK hE hF
    constructor
    · intro hP
      have hs := scanPrefix_int _ hP
      simp [ParseColumn, columnGoType, columnTags, resolveType, hs, widenType, hN, hK, hE, hF,
        typeTags, nullTags, defaultTags, hD, renderTag, Join]
      apply String.ext
      simp [String.data_append]
    · intro hP
      have hs := scanPrefix_text _ hP
      simp [ParseColumn, columnGoType, columnTags, resolveType, hs, widenType, hN, hK, hE, hF,
        typeTags, nullTags, defaultTags, hD, renderTag, Join, default_quoted]
      apply String.ext
      simp [String.data_append]

/-- C4, amended, at `age int(11) NOT NULL DEFAULT 18` and at the nullable
`bio text DEFAULT 'n/a'`. -/
theorem ParseColumn_default_witness :
    ParseColumn plainTables ageColumn = ["Age", "int", "`orm:\"notnull default(18)\"`"]
    ∧ (ParseColumn plainTables ageColumn)[2]? = some "`orm:\"notnull default(18)\"`"
    ∧ ParseColumn plainTables bioColumn
        = ["Bio", "sql.NullString", "`orm:\"default('n/a')\"`"] :=
  ⟨by decide, (ParseColumn_default plainTables ageColumn).2.1 (by decide),
    ((ParseColumn_default plainTables bioColumn).2.2.2 (by decide) (by decide) (by decide)
      (by decide) (by decide)).2 (by decide)⟩

/-- C5: a nullable column whose lower-cased type starts with `datetime`,
`date` or `timestamp`, with no key tag, no `auto_increment` and an empty
default, is mapped to `time.Time`; its annotation is `orm:"created"`,
`orm:"updated"` or `orm:"deleted"` when the field camel-cases to `CreatedAt`,
`UpdatedAt` or `DeletedAt`, and empty for every other name. -/
theorem ParseColumn_time (U : UnicodeTables) (column : Column)
    (hNull : colGet column "Null" ≠ "NO")
    (hType : HasPrefix (ToLower U (colGet column "Type")) "datetime" = true
      ∨ HasPrefix (ToLower U (colGet column "Type")) "date" = true
      ∨ HasPrefix (ToLower U (colGet column "Type")) "timestamp" = true)
    (hKey : colGet column "Key" ≠ "PRI" ∧ colGet column "Key" ≠ "UNI"
      ∧ colGet column "Key" ≠ "MUL")
    (hExtra : Contains (colGet column "Extra") "auto_increment" = false)
    (hDefault : colGet column "Default" = "") :
    ParseColumn U column
      = [ToCamelCase U (colGet column "Field"), "time.Time",
          if ToCamelCase U (colGet column "Field") = "CreatedAt" then "`orm:\"created\"`"
          else if ToCamelCase U (colGet column "Field") = "UpdatedAt" then "`orm:\"updated\"`"
          else if ToCamelCase U (colGet column "Field") = "DeletedAt" then "`orm:\"deleted\"`"
          else ""] := by
  obtain ⟨hs, ht⟩ := scanPrefix_time _ hType
  have hs2 : (resolveType U column).2 = "time.Time" := hs
  have ht2 : typeTags (resolveType U column).1 (columnTp U column) = [] := ht
  by_cases hC : ToCamelCase U (colGet column "Field") = "CreatedAt"
  · simp [ParseColumn, columnGoType, columnTags, hs2, ht2, widenType, hNull, keyTags, hKey.1,
      hKey.2.1, hKey.2.2, extraTags, hExtra, nullTags, defaultTags, hDefault, nameTags, hC,
      renderTag, Join]
  · by_cases hU : ToCamelCase U (colGet column "Field") = "UpdatedAt"
    · simp [ParseColumn, columnGoType, columnTags, hs2, ht2, widenType, hNull, keyTags, hKey.1,
        hKey.2.1, hKey.2.2, extraTags, hExtra, nullTags, defaultTags, hDefault, nameTags, hU,
        renderTag, Join]
    · by_cases hD : ToCamelCase U (colGet column "Field") = "DeletedAt"
      · simp [ParseColumn, columnGoType, columnTags, hs2, ht2, widenType, hNull, keyTags, hKey.1,
          hKey.2.1, hKey.2.2, extraTags, hExtra, nullTags, defaultTags, hDefault, nameTags, hD,
          renderTag, Join]
      · simp [ParseColumn, columnGoType, columnTags, hs2, ht2, widenType, hNull, keyTags, hKey.1,
          hKey.2.1, hKey.2.2, extraTags, hExtra, nullTags, defaultTags, hDefault, nameTags, hC,
          hU, hD, renderTag]

/-- C5 at the nullable `created_at datetime`. -/
theorem ParseColumn_time_witness :
    ParseColumn plainTables createdAtColumn = ["CreatedAt", "time.Time", "`orm:\"created\"`"] :=
  ParseColumn_time plainTables createdAtColumn (by decide) (by decide) (by decide) (by decide)
    (by decide)

/-! ## Identifier casing -/

theorem ascii_forall (P : Char → Prop) (h : ∀ n, n < 128 → P (Char.ofNat n)) (c : Char)
    (hc : c.toNat < 128) : P c := by
  have := h c.toNat hc
  rwa [Char.ofNat_toNat] at this

theorem alnum_ascii (c : Char) (h : c.isAlphanum = true) : c.toNat < 128 := by
  simp only [Char.isAlphanum, Char.isAlpha, Char.isUpper, Char.isLower, Char.isDigit,
    UInt32.le_def, BitVec.le_def, Bool.or_eq_true, Bool.and_eq_true, decide_eq_true_eq,
    ge_iff_le, BitVec.toNat_ofNat] at h
  simp only [Char.toNat, UInt32.toNat]
  have e1 : (UInt32.toBitVec 65).toNat = 65 := rfl
  have e2 : (UInt32.toBitVec 90).toNat = 90 := rfl
  have e3 : (UInt32.toBitVec 97).toNat = 97 := rfl
  have e4 : (UInt32.toBitVec 122).toNat = 122 := rfl
  have e5 : (UInt32.toBitVec 48).toNat = 48 := rfl
  have e6 : (UInt32.toBitVec 57).toNat = 57 := rfl
  omega

theorem unicodeToLower_ascii (U : UnicodeTables) (c : Char) (h : c.toNat < 128) :
    unicodeToLower U c = unicodeToLower plainTables c := by
  have h2 : c.toNat ≤ 0x7F := by omega
  simp [unicodeToLower, h2]

theorem unicodeToTitle_ascii (U : UnicodeTables) (c : Char) (h : c.toNat < 128) :
    unicodeToTitle U c = unicodeToTitle plainTables c := by
  have h2 : c.toNat ≤ 0x7F := by omega
  simp [unicodeToTitle, h2]

theorem isSeparator_ascii (U : UnicodeTables) (c : Char) (h : c.toNat < 128) :
    isSeparator U c = isSeparator plainTables c := by
  have h2 : c.toNat ≤ 0x7F := by omega
  simp [isSeparator, h2]

set_option maxRecDepth 100000 in
theorem alnumFacts_table : ∀ n, n < 128 → alnumFacts (Char.ofNat n) := by
  decide

theorem alnumFacts_all (c : Char) : alnumFacts c := by
  intro h
  exact ascii_forall alnumFacts alnumFacts_table c (alnum_ascii c h) h

theorem replaceAux_underscore (l : List Char) :
    replaceAux ['_'] [' '] 0 l = l.map (fun c => if c = '_' then ' ' else c) := by
  induction l with
  | nil => rfl
  | cons c cs ih =>
    by_cases h : c = '_'
    · subst h
      simp [replaceAux, List.isPrefixOf, ih]
    · have h2 : ¬ '_' = c := fun e => h e.symm
      simp [replaceAux, List.isPrefixOf, ih, h, h2]

theorem replaceAux_space (l : List Char) :
    replaceAux [' '] [] 0 l = l.filter (fun c => decide (c ≠ ' ')) := by
  induction l with
  | nil => rfl
  | cons c cs ih =>
    by_cases h : c = ' '
    · subst h
      simp [replaceAux, List.isPrefixOf, ih]
    · have h2 : ¬ ' ' = c := fun e => h e.symm
      simp [replaceAux, List.isPrefixOf, ih, h, h2]

theorem ToCamelCase_data (U : UnicodeTables) (s : String) :
    (ToCamelCase U s).data = camelFrom U ' ' s.data := by
  have e1 : ("_" : String).data = ['_'] := rfl
  have e2 : (" " : String).data = [' '] := rfl
  have e3 : ("" : String).data = [] := rfl
  simp only [ToCamelCase, Replace, Title, ToLower, e1, e2, e3, replaceAux_underscore,
    replaceAux_space, camelFrom, List.map_map]
  rfl

theorem camelFrom_underscore (U : UnicodeTables) (prev : Char) (l : List Char) :
    camelFrom U prev ('_' :: l) = camelFrom U ' ' l := by
  have e : spaced U '_' = ' ' := rfl
  have t : unicodeToTitle U ' ' = ' ' := rfl
  simp only [camelFrom, List.map_cons, e, titleAux, t, ite_self]
  simp

theorem spaced_alnum (U : UnicodeTables) (c : Char) (h : c.isAlphanum = true) :
    spaced U c = c.toLower := by
  obtain ⟨h1, h2, _⟩ := alnumFacts_all c h
  simp [spaced, unicodeToLower_ascii U c (alnum_ascii c h), h1, h2]

theorem titleWord_head_ne (U : UnicodeTables) (prev c : Char) (h : c.isAlphanum = true) :
    (if isSeparator U prev = true then unicodeToTitle U c.toLower else c.toLower) ≠ ' ' := by
  obtain ⟨_, _, h3, h4, _, h6, _, h8⟩ := alnumFacts_all c h
  rw [unicodeToTitle_ascii U _ h6, h8]
  split_ifs <;> assumption

theorem camelFrom_word (U : UnicodeTables) (w : List Char)
    (hw : ∀ c ∈ w, c.isAlphanum = true) (prev : Char) :
    camelFrom U prev w = titleWord U prev w
    ∧ ∀ rest, camelFrom U prev (w ++ '_' :: rest) = titleWord U prev w ++ camelFrom U ' ' rest := by
  induction w generalizing prev with
  | nil =>
    refine ⟨rfl, fun rest => ?_⟩
    simp [camelFrom_underscore, titleWord, titleAux]
  | cons c cs ih =>
    have hc : c.isAlphanum = true := hw c (List.mem_cons_self _ _)
    have hcs : ∀ d ∈ cs, d.isAlphanum = true := fun d hd => hw d (List.mem_cons_of_mem _ hd)
    have hne := titleWord_head_ne U prev c hc
    obtain ⟨ih1, ih2⟩ := ih hcs c.toLower
    constructor
    · simp only [camelFrom, titleWord] at ih1 ⊢
      simp only [List.map_cons, spaced_alnum U c hc, titleAux]
      rw [List.filter_cons_of_pos (by simpa using hne), ih1]
    · intro rest
      have := ih2 rest
      simp only [camelFrom, titleWord] at this ⊢
      simp only [List.cons_append, List.map_cons, spaced_alnum U c hc, titleAux]
      rw [List.filter_cons_of_pos (by simpa using hne)]
      exact congrArg _ this

theorem titleAux_word (U : UnicodeTables) (w : List Char)
    (hw : ∀ c ∈ w, c.isAlphanum = true) (prev : Char) (hp : isSeparator U prev = false) :
    titleAux U prev (w.map Char.toLower) = w.map Char.toLower := by
  induction w generalizing prev with
  | nil => rfl
  | cons c cs ih =>
    have hc : c.isAlphanum = true := hw c (List.mem_cons_self _ _)
    obtain ⟨_, _, _, _, _, h6, h7, _⟩ := alnumFacts_all c hc
    have hs : isSeparator U c.toLower = false := by rw [isSeparator_ascii U _ h6, h7]
    simp only [List.map_cons, titleAux, hp, Bool.false_eq_true, if_false]
    rw [ih (fun d hd => hw d (List.mem_cons_of_mem _ hd)) _ hs]

theorem titleWord_space (U : UnicodeTables) (w : String)
    (hw : ∀ c ∈ w.data, c.isAlphanum = true) :
    titleWord U ' ' w.data = (capitalizeWord w).data := by
  obtain ⟨l⟩ := w
  cases l with
  | nil => rfl
  | cons c cs =>
    have hc : c.isAlphanum = true := hw c (List.mem_cons_self _ _)
    obtain ⟨_, _, _, _, _, h6, h7, h8⟩ := alnumFacts_all c hc
    have hs : isSeparator U c.toLower = false := by rw [isSeparator_ascii U _ h6, h7]
    have hsp : isSeparator U ' ' = true := rfl
    simp only [titleWord, capitalizeWord, List.map_cons, titleAux, hsp, if_true,
      unicodeToTitle_ascii U _ h6, h8]
    rw [titleAux_word U cs (fun d hd => hw d (List.mem_cons_of_mem _ hd)) _ hs]

theorem camelFrom_words (U : UnicodeTables) (words : List String) (hne : words ≠ [])
    (hw : ∀ w ∈ words, ∀ c ∈ w.data, c.isAlphanum = true) :
    camelFrom U ' ' (Join words "_").data = (camelWords words).data := by
  induction words with
  | nil => exact absurd rfl hne
  | cons w ws ih =>
    have hw1 : ∀ c ∈ w.data, c.isAlphanum = true := hw w (List.mem_cons_self _ _)
    cases ws with
    | nil =>
      simp only [Join, camelWords, String.data_append]
      rw [(camelFrom_word U w.data hw1 ' ').1, titleWord_space U w hw1]
      simp
    | cons w2 rest =>
      have e : ("_" : String).data = ['_'] := rfl
      have ih2 := ih (List.cons_ne_nil _ _) (fun v hv => hw v (List.mem_cons_of_mem _ hv))
      simp only [Join, String.data_append, e, List.append_assoc, List.singleton_append]
      rw [(camelFrom_word U w.data hw1 ' ').2, titleWord_space U w hw1, ih2]
      simp only [camelWords, String.data_append]

theorem capitalizeWord_clean (w : String) (hw : ∀ c ∈ w.data, c.isAlphanum = true) :
    ∀ x ∈ (capitalizeWord w).data, x ≠ '_' ∧ x ≠ ' ' := by
  have tail : ∀ cs : List Char, (∀ c ∈ cs, c.isAlphanum = true) →
      ∀ x ∈ cs.map Char.toLower, x ≠ '_' ∧ x ≠ ' ' := by
    intro cs hcs x hx
    obtain ⟨c, hc, rfl⟩ := List.mem_map.1 hx
    obtain ⟨_, h2, h3, _⟩ := alnumFacts_all c (hcs c hc)
    exact ⟨h2, h3⟩
  obtain ⟨l⟩ := w
  cases l with
  | nil => intro x hx; simp [capitalizeWord] at hx
  | cons c cs =>
    obtain ⟨_, _, _, h4, h5, _⟩ := alnumFacts_all c (hw c (List.mem_cons_self _ _))
    intro x hx
    simp only [capitalizeWord, List.map_cons, List.mem_cons] at hx
    rcases hx with rfl | hx
    · exact ⟨h5, h4⟩
    · exact tail cs (fun d hd => hw d (List.mem_cons_of_mem _ hd)) x hx

theorem camelWords_clean (words : List String)
    (hw : ∀ w ∈ words, ∀ c ∈ w.data, c.isAlphanum = true) :
    ∀ x ∈ (camelWords words).data, x ≠ '_' ∧ x ≠ ' ' := by
  induction words with
  | nil => intro x hx; simp [camelWords] at hx
  | cons w ws ih =>
    intro x hx
    simp only [camelWords, String.data_append, List.mem_append] at hx
    rcases hx with hx | hx
    · exact capitalizeWord_clean w (hw w (List.mem_cons_self _ _)) x hx
    · exact ih (fun v hv => hw v (List.mem_cons_of_mem _ hv)) x hx

/-- C6: on a name made of one or more non-empty words of ASCII letters and
digits joined by single underscores, `ToCamelCase` returns the concatenation of
the words, each lower-cased and then with its first character upper-cased, and
no underscore or space is left; `user_id`, `id` and `created_at` give `UserId`,
`Id` and `CreatedAt`. -/
theorem ToCamelCase_words (U : UnicodeTables) (words : List String) :
    (words ≠ [] → (∀ w ∈ words, w ≠ "" ∧ ∀ c ∈ w.data, c.isAlphanum = true) →
      ToCamelCase U (Join words "_") = camelWords words
      ∧ '_' ∉ (ToCamelCase U (Join words "_")).data
      ∧ ' ' ∉ (ToCamelCase U (Join words "_")).data)
    ∧ ToCamelCase U "user_id" = "UserId"
    ∧ ToCamelCase U "id" = "Id"
    ∧ ToCamelCase U "created_at" = "CreatedAt" := by
  refine ⟨fun hne hw => ?_, rfl, rfl, rfl⟩
  have hw2 : ∀ w ∈ words, ∀ c ∈ w.data, c.isAlphanum = true := fun w h => (hw w h).2
  have e : ToCamelCase U (Join words "_") = camelWords words :=
    String.ext ((ToCamelCase_data U _).trans (camelFrom_words U words hne hw2))
  rw [e]
  exact ⟨rfl, fun h => (camelWords_clean words hw2 _ h).1 rfl,
    fun h => (camelWords_clean words hw2 _ h).2 rfl⟩

/-- C6 at the words `user`, `id`. -/
theorem ToCamelCase_words_witness :
    ToCamelCase plainTables "user_id" = "UserId"
    ∧ '_' ∉ (ToCamelCase plainTables "user_id").data
    ∧ ' ' ∉ (ToCamelCase plainTables "user_id").data :=
  (ToCamelCase_words plainTables ["user", "id"]).1 (by decide) (by decide)

/-! ## Table filter and struct renderer -/

theorem matchesAny_iff (table : String) (tables : List String) :
    matchesAny table tables = true ↔ table ∈ tables := by
  induction tables with
  | nil => simp [matchesAny]
  | cons t rest ih =>
    by_cases h : table = t
    · simp [matchesAny, h]
    · simp [matchesAny, h, ih]

/-- C7: `ShouldGenerate` returns true for the empty allowlist, and for a
non-empty allowlist exactly when the table name equals one of its entries; the
allowlist `["user"]` selects only `user` among `user`, `address`, the empty one
selects both. -/
theorem ShouldGenerate_spec (tables : List String) (table : String) :
    (tables = [] → ShouldGenerate tables table = true)
    ∧ (tables ≠ [] → (ShouldGenerate tables table = true ↔ ∃ t ∈ tables, table = t))
    ∧ ["user", "address"].filter (ShouldGenerate ["user"]) = ["user"]
    ∧ ["user", "address"].filter (ShouldGenerate []) = ["user", "address"] := by
  refine ⟨?_, ?_, by decide, by decide⟩
  · rintro rfl
    rfl
  · intro h
    have hl : tables.length ≠ 0 := fun e => h (List.length_eq_zero.1 e)
    simp [ShouldGenerate, hl, matchesAny_iff]

/-- C10: for a table whose description has no row, `TableToStruct` returns
the empty-bodied declaration: the header line, no field line, the closing
line. -/
theorem TableToStruct_empty (U : UnicodeTables) (TableName : String) :
    TableToStruct U TableName []
      = some ("type " ++ ToCamelCase U TableName ++ " struct \x7b\n\x7d\n") := by
  simp only [TableToStruct, scanResults, renderLines]
  congr 1
  apply String.ext
  simp [String.data_append]

theorem updateMaxlen_three (a b c : Nat) (x y z : String) :
    updateMaxlen [a, b, c] 0 [x, y, z]
      = some [max a (goLen x), max b (goLen y), max c (goLen z)] := by
  have m : ∀ p q : Nat, (if p < q then q else p) = max p q := by
    intro p q
    rw [max_def]
    split_ifs <;> omega
  rw [← m a, ← m b, ← m c]
  by_cases h1 : a < goLen x <;> by_cases h2 : b < goLen y <;> by_cases h3 : c < goLen z <;>
    simp [updateMaxlen, h1, h2, h3]

theorem scanResults_widths (U : UnicodeTables) (results : List Column)
    (columns : List (List String)) (a b c : Nat) :
    scanResults U results (columns, [a, b, c])
      = some (columns ++ results.map (ParseColumn U),
          [max a (columnWidth U results 0), max b (columnWidth U results 1),
            max c (columnWidth U results 2)]) := by
  induction results generalizing columns a b c with
  | nil => simp [scanResults, columnWidth]
  | cons column rest ih =>
    have e : ParseColumn U column = [cell U 0 column, cell U 1 column, cell U 2 column] := rfl
    simp only [scanResults, e, updateMaxlen_three, ih]
    simp [columnWidth, max_assoc, e]
theorem renderLines_map (U : UnicodeTables) (w0 w1 w2 : Nat) (rows : List Column)
    (code : String) :
    renderLines [w0, w1, w2] (rows.map (ParseColumn U)) code
      = some ((rows.map (fun column =>
          "    " ++ padRight w0 (cell U 0 column) ++ " " ++ padRight w1 (cell U 1 column)
            ++ " " ++ padRight w2 (cell U 2 column) ++ "\n")).foldl
          (fun code line => code ++ line) code) := by
  induction rows generalizing code with
  | nil => rfl
  | cons column rest ih =>
    have e : ParseColumn U column = [cell U 0 column, cell U 1 column, cell U 2 column] := rfl
    have f : formatLine [w0, w1, w2] [cell U 0 column, cell U 1 column, cell U 2 column]
        = some ("    " ++ padRight w0 (cell U 0 column) ++ " " ++ padRight w1 (cell U 1 column)
            ++ " " ++ padRight w2 (cell U 2 column) ++ "\n") := rfl
    simp only [List.map_cons, renderLines, e, f, List.foldl_cons]
    exact ih _

/-- `TableToStruct` never fails: it returns the header, one aligned line per
row in the rows' order, and the closing line. -/
theorem TableToStruct_eq (U : UnicodeTables) (TableName : String) (results : List Column) :
    TableToStruct U TableName results
      = some ((results.map (alignedLine U results)).foldl (fun code line => code ++ line)
          ("type " ++ ToCamelCase U TableName ++ " struct \x7b\n") ++ "\x7d\n") := by
  simp only [TableToStruct, scanResults_widths, List.nil_append, renderLines_map, Nat.zero_max,
    zero_le, max_eq_right]
  rfl

theorem length_le_goLen (s : String) : s.length ≤ goLen s := by
  obtain ⟨l⟩ := s
  simp only [String.length, goLen]
  induction l with
  | nil => simp
  | cons c cs ih =>
    have h : 1 ≤ runeLen c := by
      unfold runeLen
      split_ifs <;> omega
    simp only [List.length_cons, List.map_cons, List.sum_cons]
    omega

theorem cell_le_width (U : UnicodeTables) (results : List Column) (i : Nat) (column : Column)
    (h : column ∈ results) : goLen (cell U i column) ≤ columnWidth U results i := by
  induction results with
  | nil => simp at h
  | cons r rest ih =>
    simp only [columnWidth, List.map_cons, List.foldr_cons] at ih ⊢
    rcases List.mem_cons.1 h with rfl | h
    · exact le_max_left _ _
    · exact le_trans (ih h) (le_max_right _ _)

theorem width_attained (U : UnicodeTables) (results : List Column) (i : Nat)
    (h : results ≠ []) : ∃ column ∈ results, goLen (cell U i column) = columnWidth U results i := by
  induction results with
  | nil => exact absurd rfl h
  | cons r rest ih =>
    by_cases hr : rest = []
    · subst hr
      exact ⟨r, List.mem_cons_self _ _, by simp [columnWidth]⟩
    · obtain ⟨c, hc, e⟩ := ih hr
      by_cases hle : columnWidth U rest i ≤ goLen (cell U i r)
      · exact ⟨r, List.mem_cons_self _ _, by
          simp only [columnWidth, List.map_cons, List.foldr_cons] at hle ⊢
          exact (max_eq_left hle).symm⟩
      · exact ⟨c, List.mem_cons_of_mem _ hc, by
          simp only [columnWidth, List.map_cons, List.foldr_cons] at hle e ⊢
          rw [e]
          exact (max_eq_right (by omega)).symm⟩

theorem padRight_small (w : Nat) (s : String) (hw : w ≤ 1000000) :
    padRight w s = s ++ ⟨List.replicate (w - s.length) ' '⟩ := by
  have h : ¬ 1000000 < w := by omega
  simp only [padRight, h, if_false]

theorem padRight_large (w : Nat) (s : String) (hw : 1000000 < w) :
    padRight w s = "%!(BADWIDTH)" ++ s := by
  simp only [padRight, hw, if_true]

theorem padRight_length (w : Nat) (s : String) (h : goLen s ≤ w) (hw : w ≤ 1000000) :
    (padRight w s).length = w := by
  have := length_le_goLen s
  have e : (s ++ (⟨List.replicate (w - s.length) ' '⟩ : String)).length
      = s.length + (w - s.length) := by
    rw [String.length_append]
    show s.length + (List.replicate (w - s.length) ' ').length = _
    rw [List.length_replicate]
  rw [padRight_small w s hw, e]
  omega

theorem columnWidth_le (U : UnicodeTables) (results : List Column) (i bound : Nat)
    (h : ∀ column ∈ results, goLen (cell U i column) ≤ bound) :
    columnWidth U results i ≤ bound := by
  induction results with
  | nil => simp [columnWidth]
  | cons r rest ih =>
    have h1 := h r (List.mem_cons_self _ _)
    have h2 := ih (fun c hc => h c (List.mem_cons_of_mem _ hc))
    simp only [columnWidth, List.map_cons, List.foldr_cons] at h2 ⊢
    exact max_le h1 h2

theorem cell_mem_or (U : UnicodeTables) (i : Nat) (column : Column) :
    cell U i column = "" ∨ cell U i column ∈ ParseColumn U column := by
  rcases i with _ | _ | _ | i <;> simp [cell, ParseColumn]

theorem padRight_no_newline (w : Nat) (s : String) (hw : w ≤ 1000000)
    (hs : '\n' ∉ s.data) : '\n' ∉ (padRight w s).data := by
  rw [padRight_small w s hw]
  simp only [String.data_append, List.mem_append, List.mem_replicate, not_or]
  exact ⟨hs, fun h => absurd h.2 (by decide)⟩

/-- C9, amended: for a table in which every string `ParseColumn` returns is at
most `10^6` bytes long and holds no newline, `TableToStruct` renders one field
line per row, in the rows' order; on each line name, type and tag are
left-justified and padded with spaces to the width of their column, which is
the largest `len` over all rows; every cell then has exactly that many code
points, each field line is one line of text, all field lines have the same
number of characters, and the type and the tag start at the same offset on
every line. -/
theorem TableToStruct_aligned (U : UnicodeTables) (TableName : String)
    (results : List Column)
    (hWidth : ∀ column ∈ results, ∀ s ∈ ParseColumn U column, goLen s ≤ 1000000)
    (hLine : ∀ column ∈ results, ∀ s ∈ ParseColumn U column, '\n' ∉ s.data) :
    TableToStruct U TableName results
      = some ((results.map (alignedLine U results)).foldl (fun code line => code ++ line)
          ("type " ++ ToCamelCase U TableName ++ " struct \x7b\n") ++ "\x7d\n")
    ∧ (∀ i, (∀ column ∈ results, goLen (cell U i column) ≤ columnWidth U results i)
        ∧ (results ≠ [] →
            ∃ column ∈ results, goLen (cell U i column) = columnWidth U results i))
    ∧ (∀ column ∈ results,
        (∀ i, (padRight (columnWidth U results i) (cell U i column)).length
              = columnWidth U results i
            ∧ padRight (columnWidth U results i) (cell U i column)
              = cell U i column
                ++ ⟨List.replicate (columnWidth U results i - (cell U i column).length) ' '⟩)
        ∧ (alignedLine U results column).length
            = columnWidth U results 0 + columnWidth U results 1 + columnWidth U results 2 + 7
        ∧ (∃ body : String, alignedLine U results column = body ++ "\n"
            ∧ '\n' ∉ body.data)
        ∧ (alignedLine U results column).data.drop (5 + columnWidth U results 0)
            = (padRight (columnWidth U results 1) (cell U 1 column) ++ " "
                ++ padRight (columnWidth U results 2) (cell U 2 column) ++ "\n").data
        ∧ (alignedLine U results column).data.drop
              (6 + columnWidth U results 0 + columnWidth U results 1)
            = (padRight (columnWidth U results 2) (cell U 2 column) ++ "\n").data) := by
  refine ⟨TableToStruct_eq U TableName results,
    fun i => ⟨fun column h => cell_le_width U results i column h, width_attained U results i⟩,
    fun column h => ?_⟩
  have hW : ∀ c ∈ results, ∀ i, goLen (cell U i c) ≤ 1000000 := by
    intro c hc i
    rcases cell_mem_or U i c with e | e
    · rw [e]
      decide
    · exact hWidth c hc _ e
  have hL : ∀ i, '\n' ∉ (cell U i column).data := by
    intro i
    rcases cell_mem_or U i column with e | e
    · rw [e]
      decide
    · exact hLine column h _ e
  have hB : ∀ i, columnWidth U results i ≤ 1000000 :=
    fun i => columnWidth_le U results i 1000000 (fun c hc => hW c hc i)
  have hl : ∀ i, (padRight (columnWidth U results i) (cell U i column)).length
      = columnWidth U results i :=
    fun i => padRight_length _ _ (cell_le_width U results i column h) (hB i)
  have hn : ∀ i, '\n' ∉ (padRight (columnWidth U results i) (cell U i column)).data :=
    fun i => padRight_no_newline _ _ (hB i) (hL i)
  have h0 := hl 0
  have h1 := hl 1
  have h2 := hl 2
  have e1 : ("    " : String).data = [' ', ' ', ' ', ' '] := rfl
  have e2 : (" " : String).data = [' '] := rfl
  have e3 : ("\n" : String).data = ['\n'] := rfl
  simp only [String.length] at h0 h1 h2
  refine ⟨fun i => ⟨hl i, padRight_small _ _ (hB i)⟩, ?_, ?_, ?_, ?_⟩
  · simp only [alignedLine, String.length, String.data_append, List.length_append, h0, h1, h2,
      e1, e2, e3, List.length_cons, List.length_nil]
    omega
  · refine ⟨"    " ++ padRight (columnWidth U results 0) (cell U 0 column)
      ++ " " ++ padRight (columnWidth U results 1) (cell U 1 column)
      ++ " " ++ padRight (columnWidth U results 2) (cell U 2 column), rfl, ?_⟩
    simp only [String.data_append, List.mem_append, e1, e2, not_or]
    exact ⟨⟨⟨⟨⟨by decide, hn 0⟩, by decide⟩, hn 1⟩, by decide⟩, hn 2⟩
  · simp only [alignedLine, String.data_append, e1, e2, e3, List.append_assoc]
    rw [← List.append_assoc, ← List.append_assoc]
    apply List.drop_left'
    simp only [List.length_append, h0, List.length_cons, List.length_nil]
    omega
  · simp only [alignedLine, String.data_append, e1, e2, e3, List.append_assoc]
    rw [← List.append_assoc, ← List.append_assoc, ← List.append_assoc, ← List.append_assoc]
    apply List.drop_left'
    simp only [List.length_append, h0, h1, List.length_cons, List.length_nil]
    omega

set_option maxRecDepth 100000 in
/-- C8 fails on a `NOT NULL` column `nick varchar(32)` whose default value
is the text `sql.NullString`: the field has the type `string`, no field has the
type `sql.NullString`, and the file still gets the `database/sql` import. -/
theorem fileContent_spurious_import :
    (∀ U : UnicodeTables, ParseColumn U nickColumn
      = ["Nick", "string", "`orm:\"varchar(32) notnull default('sql.NullString')\"`"])
    ∧ (∀ U : UnicodeTables, fileContent U "models" "user" [nickColumn]
      = some ("package models\n\nimport \"database/sql\"\n\ntype User struct \x7b\n"
          ++ "    Nick string `orm:\"varchar(32) notnull default('sql.NullString')\"`\n\x7d\n")) := by
  refine ⟨fun U => rfl, fun U => ?_⟩
  have c0 : cell U 0 nickColumn = "Nick" := rfl
  have c1 : cell U 1 nickColumn = "string" := rfl
  have c2 : cell U 2 nickColumn
      = "`orm:\"varchar(32) notnull default('sql.NullString')\"`" := rfl
  have t : ToCamelCase U "user" = "User" := rfl
  simp only [fileContent, TableToStruct_eq, List.map, List.foldl, alignedLine, columnWidth,
    List.foldr, c0, c1, c2, t]
  decide

theorem hugeDefault_length : hugeDefault.length = 1000001 := by
  show (List.replicate 1000001 '1').length = 1000001
  rw [List.length_replicate]

theorem hugeTag_length : hugeTag.length = 1000018 := by
  have e1 : ("`orm:\"default(" : String).length = 14 := rfl
  have e2 : (")\"`" : String).length = 3 := rfl
  rw [hugeTag, String.length_append, String.length_append, hugeDefault_length, e1, e2]

theorem ParseColumn_hugeColumn (U : UnicodeTables) :
    ParseColumn U hugeColumn = ["A", "int", hugeTag] := by
  have hD : colGet hugeColumn "Default" = hugeDefault := rfl
  have hne : hugeDefault ≠ "" := by
    intro h
    have := congrArg String.length h
    rw [hugeDefault_length] at this
    exact absurd this (by decide)
  have hN : colGet hugeColumn "Null" = "YES" := rfl
  have hK : colGet hugeColumn "Key" = "" := rfl
  have hE : colGet hugeColumn "Extra" = "" := rfl
  have hF : ToCamelCase U (colGet hugeColumn "Field") = "A" := rfl
  have hT : resolveType U hugeColumn = ("int", "int") := rfl
  have hx : extraTags "" = [] := by decide
  have hk : keyTags "" = [] := by decide
  have hn : nameTags "A" = [] := by decide
  simp [ParseColumn, columnGoType, columnTags, hD, hN, hK, hE, hF, hT, hx, hk, hn, widenType,
    typeTags, nullTags, defaultTags, hne, renderTag, Join, hugeTag]
  apply String.ext
  simp [String.data_append]
theorem columnWidth_huge (U : UnicodeTables) :
    1000000 < columnWidth U [hugeColumn, smallColumn] 2 := by
  have h1 : cell U 2 hugeColumn = hugeTag := by
    simp [cell, ParseColumn_hugeColumn]
  have h2 := cell_le_width U [hugeColumn, smallColumn] 2 hugeColumn (List.mem_cons_self _ _)
  have h3 := length_le_goLen hugeTag
  rw [h1] at h2
  rw [hugeTag_length] at h3
  omega

theorem foldl_append_two (init x y : String) :
    [x, y].foldl (fun code line => code ++ line) init = init ++ x ++ y := rfl

theorem map_two (g : Column → String) (a b : Column) : [a, b].map g = [g a, g b] := rfl

theorem alignedLine_huge (U : UnicodeTables) :
    alignedLine U [hugeColumn, smallColumn] hugeColumn
      = "    " ++ "A" ++ " " ++ "int" ++ " " ++ ("%!(BADWIDTH)" ++ hugeTag) ++ "\n"
    ∧ alignedLine U [hugeColumn, smallColumn] smallColumn
      = "    " ++ "B" ++ " " ++ "int" ++ " " ++ ("%!(BADWIDTH)" ++ "") ++ "\n" := by
  have a0 : cell U 0 hugeColumn = "A" := rfl
  have a1 : cell U 1 hugeColumn = "int" := rfl
  have a2 : cell U 2 hugeColumn = hugeTag := by simp [cell, ParseColumn_hugeColumn]
  have b0 : cell U 0 smallColumn = "B" := rfl
  have b1 : cell U 1 smallColumn = "int" := rfl
  have b2 : cell U 2 smallColumn = "" := rfl
  have w0 : columnWidth U [hugeColumn, smallColumn] 0 = 1 := by
    simp only [columnWidth, List.map, List.foldr, a0, b0]
    decide
  have w1 : columnWidth U [hugeColumn, smallColumn] 1 = 3 := by
    simp only [columnWidth, List.map, List.foldr, a1, b1]
    decide
  have pa : padRight 1 "A" = "A" := by decide
  have pb : padRight 1 "B" = "B" := by decide
  have p1 : padRight 3 "int" = "int" := by decide
  constructor
  · unfold alignedLine
    rw [w0, w1, a0, a1, a2, padRight_large _ _ (columnWidth_huge U), pa, p1]
  · unfold alignedLine
    rw [w0, w1, b0, b1, b2, padRight_large _ _ (columnWidth_huge U), pb, p1]

theorem TableToStruct_huge (U : UnicodeTables) :
    TableToStruct U "t" [hugeColumn, smallColumn]
      = some ("type T struct \x7b\n"
          ++ ("    A int %!(BADWIDTH)" ++ hugeTag ++ "\n")
          ++ "    B int %!(BADWIDTH)\n"
          ++ "\x7d\n") := by
  have t : ToCamelCase U "t" = "T" := rfl
  have shape : ∀ h : String,
      "type " ++ "T" ++ " struct \x7b\n"
          ++ ("    " ++ "A" ++ " " ++ "int" ++ " " ++ ("%!(BADWIDTH)" ++ h) ++ "\n")
          ++ ("    " ++ "B" ++ " " ++ "int" ++ " " ++ ("%!(BADWIDTH)" ++ "") ++ "\n")
          ++ "\x7d\n"
        = "type T struct \x7b\n" ++ ("    A int %!(BADWIDTH)" ++ h ++ "\n")
          ++ "    B int %!(BADWIDTH)\n" ++ "\x7d\n" := by
    intro h
    apply String.ext
    simp [String.data_append]
  have e := TableToStruct_eq U "t" [hugeColumn, smallColumn]
  rw [map_two, foldl_append_two, (alignedLine_huge U).1, (alignedLine_huge U).2, t] at e
  rw [e]
  exact congrArg some (shape hugeTag)

theorem hugeLine_length :
    ("    A int %!(BADWIDTH)" ++ hugeTag ++ "\n").length = 1000041 := by
  have e1 : ("    A int %!(BADWIDTH)" : String).length = 22 := rfl
  have e2 : ("\n" : String).length = 1 := rfl
  rw [String.length_append, String.length_append, hugeTag_length, e1, e2]

set_option maxRecDepth 100000 in
theorem TableToStruct_newline (U : UnicodeTables) :
    TableToStruct U "t" [newlineColumn]
      = some ("type T struct \x7b\n"
          ++ "    Note sql.NullString `orm:\"default('a\nb')\"`\n"
          ++ "\x7d\n") := by
  have c0 : cell U 0 newlineColumn = "Note" := rfl
  have c1 : cell U 1 newlineColumn = "sql.NullString" := rfl
  have c2 : cell U 2 newlineColumn = "`orm:\"default('a\nb')\"`" := rfl
  have t : ToCamelCase U "t" = "T" := rfl
  simp only [TableToStruct_eq, List.map, List.foldl, alignedLine, columnWidth,
    List.foldr, c0, c1, c2, t]
  decide

/-- C9 as stated fails in two ways.  With a tag column wider than `10^6`
(a nullable `int` column whose default has 1,000,001 digits) `fmt` refuses the
width: each line gets `%!(BADWIDTH)` and an unpadded tag, and the two field
lines differ in length.  With a default that holds a newline the one column
fills two lines of text. -/
theorem TableToStruct_aligned_counterexample :
    (∀ U : UnicodeTables,
        TableToStruct U "t" [hugeColumn, smallColumn]
          = some ("type T struct \x7b\n"
              ++ ("    A int %!(BADWIDTH)" ++ hugeTag ++ "\n")
              ++ "    B int %!(BADWIDTH)\n"
              ++ "\x7d\n")
        ∧ ParseColumn U hugeColumn = ["A", "int", hugeTag]
        ∧ ParseColumn U smallColumn = ["B", "int", ""]
        ∧ 1000000 < columnWidth U [hugeColumn, smallColumn] 2)
    ∧ ("    A int %!(BADWIDTH)" ++ hugeTag ++ "\n").length = 1000041
    ∧ ("    B int %!(BADWIDTH)\n" : String).length = 23
    ∧ (∀ U : UnicodeTables,
        TableToStruct U "t" [newlineColumn]
          = some ("type T struct \x7b\n"
              ++ "    Note sql.NullString `orm:\"default('a\nb')\"`\n"
              ++ "\x7d\n")
        ∧ ParseColumn U newlineColumn
          = ["Note", "sql.NullString", "`orm:\"default('a\nb')\"`"])
    ∧ ("    Note sql.NullString `orm:\"default('a\nb')\"`\n" : String).data.count '\n' = 2 :=
  ⟨fun U => ⟨TableToStruct_huge U, ParseColumn_hugeColumn U, rfl, columnWidth_huge U⟩,
    hugeLine_length, rfl,
    fun U => ⟨TableToStruct_newline U, rfl⟩, by decide⟩

set_option maxRecDepth 100000 in
/-- C9, amended, on a table of three rows: the rendered block, and the length
of the line of `id`. -/
theorem TableToStruct_aligned_witness :
    TableToStruct plainTables "user" [idColumn, emailColumn, createdAtColumn]
      = some ("type User struct \x7b\n"
          ++ "    Id        int            `orm:\"pk autoincr notnull\"`\n"
          ++ "    Email     sql.NullString `orm:\"varchar(255)\"`       \n"
          ++ "    CreatedAt time.Time      `orm:\"created\"`            \n"
          ++ "\x7d\n")
    ∧ (alignedLine plainTables [idColumn, emailColumn, createdAtColumn] idColumn).length
        = columnWidth plainTables [idColumn, emailColumn, createdAtColumn] 0
          + columnWidth plainTables [idColumn, emailColumn, createdAtColumn] 1
          + columnWidth plainTables [idColumn, emailColumn, createdAtColumn] 2 + 7 :=
  ⟨by decide,
    ((TableToStruct_aligned plainTables "user" [idColumn, emailColumn, createdAtColumn]
      (by decide) (by decide)).2.2 idColumn (by decide)).2.1⟩

/-! ## Totality, tag output, idempotence and the order of the table -/

theorem columnGoType_range (U : UnicodeTables) (column : Column) :
    columnGoType U column ∈ ["int", "int64", "float32", "float64", "string", "sql.NullString",
      "[]uint8", "bool", "time.Time"] := by
  have h := scanPrefix_range (columnTp U column)
  simp only [columnGoType, widenType, resolveType]
  split_ifs with h1 h2
  · simp only [List.mem_cons, List.mem_singleton, List.not_mem_nil, or_false] at h ⊢
    tauto
  · simp
  · simp only [List.mem_cons, List.mem_singleton, List.not_mem_nil, or_false] at h ⊢
    tauto

/-- C11: `ParseColumn` is total; for every column record, also one with missing
entries, it returns exactly three strings, the second of which is non-empty and
one of the nine target types; the width table of `TableToStruct` is therefore
never indexed out of range and `TableToStruct` returns a block. -/
theorem ParseColumn_total (U : UnicodeTables) (column : Column) :
    (ParseColumn U column).length = 3
    ∧ ParseColumn U column
        = [ToCamelCase U (colGet column "Field"), columnGoType U column,
            renderTag (columnTags U column)]
    ∧ columnGoType U column ∈ ["int", "int64", "float32", "float64", "string",
        "sql.NullString", "[]uint8", "bool", "time.Time"]
    ∧ columnGoType U column ≠ ""
    ∧ ParseColumn U [] = ["", "sql.NullString", "`orm:\"\"`"]
    ∧ (∀ a b c : Nat, ∃ maxlen, updateMaxlen [a, b, c] 0 (ParseColumn U column) = some maxlen
        ∧ maxlen.length = 3)
    ∧ (∀ (TableName : String) (results : List Column),
        (TableToStruct U TableName results).isSome = true) := by
  refine ⟨rfl, rfl, columnGoType_range U column, ?_, rfl, ?_, ?_⟩
  · intro h
    have := columnGoType_range U column
    rw [h] at this
    exact absurd this (by decide)
  · intro a b c
    exact ⟨_, updateMaxlen_three a b c _ _ _, rfl⟩
  · intro TableName results
    rw [TableToStruct_eq]
    rfl

theorem orm_wrap_ne_empty (s : String) : "`orm:\"" ++ s ++ "\"`" ≠ "" := by
  intro h
  have := congrArg String.length h
  simp only [String.length_append] at this
  have e : ("\"`" : String).length = 2 := rfl
  have e0 : ("" : String).length = 0 := rfl
  omega

theorem keyTags_eq_nil (key : String) :
    keyTags key = [] ↔ key ≠ "PRI" ∧ key ≠ "UNI" ∧ key ≠ "MUL" := by
  unfold keyTags
  split_ifs <;> simp_all

theorem nameTags_eq_nil (field : String) :
    nameTags field = [] ↔ field ≠ "CreatedAt" ∧ field ≠ "UpdatedAt" ∧ field ≠ "DeletedAt" := by
  unfold nameTags
  split_ifs <;> simp_all

/-- C12: the tag output of `ParseColumn` is empty exactly when no tag was
produced, that is when `Key` is none of `PRI`, `UNI`, `MUL`, the type class is
neither `char` nor `varchar`, `Extra` does not contain `auto_increment`, `Null`
is not `NO`, `Default` is empty and the camel-cased field is none of
`CreatedAt`, `UpdatedAt`, `DeletedAt`; otherwise it is the tags joined by
single spaces inside `orm:"..."` between back-quotes. -/
theorem ParseColumn_tag_empty (U : UnicodeTables) (column : Column) :
    ((ParseColumn U column)[2]? = some "" ↔ columnTags U column = [])
    ∧ (columnTags U column = [] ↔
        (colGet column "Key" ≠ "PRI" ∧ colGet column "Key" ≠ "UNI"
          ∧ colGet column "Key" ≠ "MUL")
        ∧ ((resolveType U column).1 ≠ "char" ∧ (resolveType U column).1 ≠ "varchar")
        ∧ Contains (colGet column "Extra") "auto_increment" = false
        ∧ colGet column "Null" ≠ "NO"
        ∧ colGet column "Default" = ""
        ∧ (ToCamelCase U (colGet column "Field") ≠ "CreatedAt"
          ∧ ToCamelCase U (colGet column "Field") ≠ "UpdatedAt"
          ∧ ToCamelCase U (colGet column "Field") ≠ "DeletedAt"))
    ∧ (columnTags U column ≠ [] →
        (ParseColumn U column)[2]?
          = some ("`orm:\"" ++ Join (columnTags U column) " " ++ "\"`")) := by
  refine ⟨?_, ?_, ?_⟩
  · by_cases h : columnTags U column = []
    · simp [ParseColumn, renderTag, h]
    · have hl : 0 < (columnTags U column).length := List.length_pos.2 h
      simp [ParseColumn, renderTag, hl, h, orm_wrap_ne_empty]
  · simp only [columnTags, List.append_eq_nil, keyTags_eq_nil, nameTags_eq_nil]
    simp only [typeTags, extraTags, nullTags, defaultTags]
    constructor
    · rintro ⟨⟨⟨⟨⟨h1, h2⟩, h3⟩, h4⟩, h5⟩, h6⟩
      refine ⟨h1, ?_, ?_, ?_, ?_, h6⟩
      · by_contra hc
        simp only [not_and_or, not_not] at hc
        simp [hc] at h2
      · by_contra hc
        simp only [Bool.not_eq_false] at hc
        simp [hc] at h3
      · intro hc
        simp [hc] at h4
      · by_contra hc
        simp [hc] at h5
    · rintro ⟨h1, h2, h3, h4, h5, h6⟩
      refine ⟨⟨⟨⟨⟨h1, ?_⟩, ?_⟩, ?_⟩, ?_⟩, h6⟩
      · simp [h2.1, h2.2]
      · simp [h3]
      · simp [h4]
      · simp [h5]
  · intro h
    have hl : 0 < (columnTags U column).length := List.length_pos.2 h
    simp [ParseColumn, renderTag, hl]

set_option maxRecDepth 100000 in
theorem alnum_recase_table : ∀ n, n < 128 → (Char.ofNat n).isAlphanum = true →
    (Char.ofNat n).toLower.isAlphanum = true
    ∧ (Char.ofNat n).toLower.toUpper.isAlphanum = true
    ∧ (Char.ofNat n).toLower.toLower = (Char.ofNat n).toLower
    ∧ (Char.ofNat n).toLower.toUpper.toLower.toUpper = (Char.ofNat n).toLower.toUpper := by
  decide

theorem alnum_recase (c : Char) (h : c.isAlphanum = true) :
    c.toLower.isAlphanum = true
    ∧ c.toLower.toUpper.isAlphanum = true
    ∧ c.toLower.toLower = c.toLower
    ∧ c.toLower.toUpper.toLower.toUpper = c.toLower.toUpper :=
  ascii_forall (fun c => c.isAlphanum = true →
    c.toLower.isAlphanum = true
    ∧ c.toLower.toUpper.isAlphanum = true
    ∧ c.toLower.toLower = c.toLower
    ∧ c.toLower.toUpper.toLower.toUpper = c.toLower.toUpper) alnum_recase_table c
    (alnum_ascii c h) h

theorem ToCamelCase_word (U : UnicodeTables) (w : String)
    (hw : ∀ c ∈ w.data, c.isAlphanum = true) : ToCamelCase U w = capitalizeWord w := by
  apply String.ext
  rw [ToCamelCase_data]
  have h := camelFrom_words U [w] (List.cons_ne_nil _ _) (by simpa using hw)
  simpa [Join, camelWords] using h

theorem capitalizeWord_alnum (w : String) (hw : ∀ c ∈ w.data, c.isAlphanum = true) :
    ∀ c ∈ (capitalizeWord w).data, c.isAlphanum = true := by
  obtain ⟨l⟩ := w
  cases l with
  | nil => intro c hc; simp [capitalizeWord] at hc
  | cons a as =>
    intro c hc
    simp only [capitalizeWord, List.map_cons, List.mem_cons, List.mem_map] at hc
    rcases hc with rfl | ⟨d, hd, rfl⟩
    · exact (alnum_recase a (hw a (List.mem_cons_self _ _))).2.1
    · exact (alnum_recase d (hw d (List.mem_cons_of_mem _ hd))).1

theorem capitalizeWord_idem (w : String) (hw : ∀ c ∈ w.data, c.isAlphanum = true) :
    capitalizeWord (capitalizeWord w) = capitalizeWord w := by
  obtain ⟨l⟩ := w
  cases l with
  | nil => rfl
  | cons a as =>
    have ha := alnum_recase a (hw a (List.mem_cons_self _ _))
    have hs : (as.map Char.toLower).map Char.toLower = as.map Char.toLower := by
      rw [List.map_map]
      apply List.map_congr_left
      intro d hd
      exact (alnum_recase d (hw d (List.mem_cons_of_mem _ hd))).2.2.1
    simp only [capitalizeWord, List.map_cons, ha.2.2.2, hs]

/-- C13 as stated fails: `user_id` is mapped to `UserId`, and `UserId` is
mapped to `Userid`, since `ToCamelCase` lower-cases its input first; this holds
whatever the case tables are. -/
theorem ToCamelCase_idempotent_counterexample :
    (∀ U : UnicodeTables, ToCamelCase U "user_id" = "UserId")
    ∧ (∀ U : UnicodeTables, ToCamelCase U "UserId" = "Userid")
    ∧ ¬ ∃ U : UnicodeTables,
        ToCamelCase U (ToCamelCase U "user_id") = ToCamelCase U "user_id" := by
  refine ⟨fun U => rfl, fun U => rfl, ?_⟩
  rintro ⟨U, h⟩
  have e1 : ToCamelCase U "user_id" = "UserId" := rfl
  have e2 : ToCamelCase U "UserId" = "Userid" := rfl
  rw [e1, e2] at h
  exact absurd h (by decide)

/-- C13, amended: on a name that is a single word of ASCII letters and digits
(no underscore) `ToCamelCase` is idempotent, and the output of `ToCamelCase` on
such a name is left unchanged by `ToCamelCase`. -/
theorem ToCamelCase_idempotent_word (U : UnicodeTables) (t : String)
    (ht : ∀ c ∈ t.data, c.isAlphanum = true) :
    ToCamelCase U (ToCamelCase U t) = ToCamelCase U t := by
  rw [ToCamelCase_word U t ht, ToCamelCase_word U _ (capitalizeWord_alnum t ht),
    capitalizeWord_idem t ht]

/-- C13, amended, at the name `id`: the output `Id` is left unchanged. -/
theorem ToCamelCase_idempotent_word_witness :
    ToCamelCase plainTables (ToCamelCase plainTables "id") = ToCamelCase plainTables "id"
    ∧ ToCamelCase plainTables "id" = "Id" :=
  ⟨ToCamelCase_idempotent_word plainTables "id" (by decide), by decide⟩

theorem scanPrefix_smallint (tp : String) (h : HasPrefix tp "smallint" = true) :
    scanPrefix tp prefixMap = ("smallint", "int") := by
  have e := fun q h1 h2 => HasPrefix_excludes tp "smallint" q h h1 h2
  simp [scanPrefix, prefixMap, h, e "int" (by decide) (by decide)]

theorem scanPrefix_bigint (tp : String) (h : HasPrefix tp "bigint" = true) :
    scanPrefix tp prefixMap = ("bigint", "int64") := by
  have e := fun q h1 h2 => HasPrefix_excludes tp "bigint" q h h1 h2
  simp [scanPrefix, prefixMap, h, e "int" (by decide) (by decide),
    e "smallint" (by decide) (by decide)]

/-- The scan falls back to `("varchar", "string")` when no prefix of the
table starts the type. -/
theorem scanPrefix_none (tp : String) (table : List (String × String))
    (h : ∀ item ∈ table, HasPrefix tp item.1 = false) :
    scanPrefix tp table = ("varchar", "string") := by
  induction table with
  | nil => rfl
  | cons item rest ih =>
    simp only [scanPrefix, h item (List.mem_cons_self _ _), Bool.false_eq_true, if_false]
    exact ih (fun i hi => h i (List.mem_cons_of_mem _ hi))

/-- C14 as stated fails: no type that starts with `smallint` or `bigint`
starts with `int`, so the scan never selects the `int` entry for it; a
`bigint(20)` column resolves to `int64`. -/
theorem scanPrefix_int_shadow_counterexample :
    (¬ ∃ (U : UnicodeTables) (column : Column),
        (HasPrefix (columnTp U column) "smallint" = true
          ∨ HasPrefix (columnTp U column) "bigint" = true)
        ∧ (resolveType U column).1 = "int")
    ∧ (∀ U : UnicodeTables,
        ParseColumn U [("Field", "total"), ("Type", "bigint(20)"), ("Null", "NO")]
          = ["Total", "int64", "`orm:\"notnull\"`"]) := by
  refine ⟨?_, fun U => rfl⟩
  rintro ⟨U, column, h | h, hi⟩
  · rw [resolveType, scanPrefix_smallint _ h] at hi
    exact absurd hi (by decide)
  · rw [resolveType, scanPrefix_bigint _ h] at hi
    exact absurd hi (by decide)

/-- C14, amended: a column type that starts with `smallint` or `bigint` does
not start with `int`, and the scan selects the column's own entry: `smallint`
resolves to `int`, `bigint` to `int64`. -/
theorem scanPrefix_own_entry (U : UnicodeTables) (column : Column)
    (h : HasPrefix (columnTp U column) "smallint" = true
      ∨ HasPrefix (columnTp U column) "bigint" = true) :
    HasPrefix (columnTp U column) "int" = false
    ∧ (HasPrefix (columnTp U column) "smallint" = true →
        resolveType U column = ("smallint", "int")
        ∧ (ParseColumn U column)[1]? = some "int")
    ∧ (HasPrefix (columnTp U column) "bigint" = true →
        resolveType U column = ("bigint", "int64")
        ∧ (ParseColumn U column)[1]? = some "int64") := by
  refine ⟨?_, ?_, ?_⟩
  · rcases h with h | h
    · exact HasPrefix_excludes _ "smallint" "int" h (by decide) (by decide)
    · exact HasPrefix_excludes _ "bigint" "int" h (by decide) (by decide)
  · intro hs
    have e : resolveType U column = ("smallint", "int") := scanPrefix_smallint _ hs
    refine ⟨e, ?_⟩
    simp [ParseColumn, columnGoType, widenType, e]
  · intro hb
    have e : resolveType U column = ("bigint", "int64") := scanPrefix_bigint _ hb
    refine ⟨e, ?_⟩
    simp [ParseColumn, columnGoType, widenType, e]

/-- C14, amended, at a `bigint(20) NOT NULL` column. -/
theorem scanPrefix_own_entry_witness :
    resolveType plainTables bigintColumn = ("bigint", "int64")
    ∧ (ParseColumn plainTables bigintColumn)[1]? = some "int64" :=
  (scanPrefix_own_entry plainTables bigintColumn (Or.inr (by decide))).2.2 (by decide)

theorem scanPrefix_varchar (tp : String) (h : HasPrefix tp "varchar" = true) :
    scanPrefix tp prefixMap = ("varchar", "string") := by
  have e := fun q h1 h2 => HasPrefix_excludes tp "varchar" q h h1 h2
  simp [scanPrefix, prefixMap, h, e "int" (by decide) (by decide),
    e "smallint" (by decide) (by decide), e "bigint" (by decide) (by decide),
    e "float" (by decide) (by decide), e "double" (by decide) (by decide),
    e "char" (by decide) (by decide), e "blob" (by decide) (by decide)]

/-- C15: a column whose lower-cased type starts with none of the fourteen
prefixes falls back to class `varchar` and type `string`: the result type is
`string` for `Null = NO` and `sql.NullString` otherwise, a non-empty default is
single-quoted, and the column gets the type tag by the rule of a `varchar`
column, which is the lower-cased type string itself.  The types `tinyint(1)`,
`decimal(10,2)`, `mediumint`, `longtext`, `mediumblob` and the empty string
are of that kind. -/
theorem ParseColumn_fallback (U : UnicodeTables) (column : Column)
    (hNone : ∀ item ∈ prefixMap, HasPrefix (columnTp U column) item.1 = false) :
    resolveType U column = ("varchar", "string")
    ∧ (ParseColumn U column)[1]?
        = some (if colGet column "Null" = "NO" then "string" else "sql.NullString")
    ∧ (ParseColumn U column)[2]? = some ("`orm:\"" ++ Join
        (keyTags (colGet column "Key")
          ++ [columnTp U column]
          ++ extraTags (colGet column "Extra")
          ++ nullTags (colGet column "Null")
          ++ (if colGet column "Default" = "" then []
              else ["default('" ++ colGet column "Default" ++ "')"])
          ++ nameTags (ToCamelCase U (colGet column "Field"))) " " ++ "\"`")
    ∧ typeTags (resolveType U column).1 (columnTp U column) = [columnTp U column]
    ∧ (∀ other : Column, HasPrefix (columnTp U other) "varchar" = true →
        typeTags (resolveType U other).1 (columnTp U other) = [columnTp U other])
    ∧ (∀ t ∈ ["tinyint(1)", "decimal(10,2)", "mediumint", "longtext", "mediumblob", ""],
        scanPrefix (ToLower U t) prefixMap = ("varchar", "string")) := by
  have e : resolveType U column = ("varchar", "string") := scanPrefix_none _ _ hNone
  refine ⟨e, ?_, ?_, ?_, ?_, ?_⟩
  · by_cases hN : colGet column "Null" = "NO"
    · simp [ParseColumn, columnGoType, widenType, e, hN]
    · simp [ParseColumn, columnGoType, widenType, e, hN]
  · by_cases hN : colGet column "Null" = "NO" <;> by_cases hD : colGet column "Default" = ""
      <;> simp [ParseColumn, columnGoType, columnTags, widenType, e, hN, hD, typeTags,
        defaultTags, renderTag, default_quoted]
  · simp [typeTags, e]
  · intro other h
    have eo : resolveType U other = ("varchar", "string") := scanPrefix_varchar _ h
    simp [typeTags, eo]
  · intro t ht
    simp only [List.mem_cons, List.mem_singleton, List.not_mem_nil, or_false] at ht
    rcases ht with rfl | rfl | rfl | rfl | rfl | rfl <;> rfl

/-- C15 at `active tinyint(1) NOT NULL DEFAULT 1`. -/
theorem ParseColumn_fallback_witness :
    ParseColumn plainTables tinyintColumn
      = ["Active", "string", "`orm:\"tinyint(1) notnull default('1')\"`"]
    ∧ resolveType plainTables tinyintColumn = ("varchar", "string") :=
  ⟨by decide, (ParseColumn_fallback plainTables tinyintColumn (by decide)).1⟩

theorem colGet_setType (column : Column) (t key : String) :
    colGet (setType column t) key = if key = "Type" then t else colGet column key := by
  by_cases h : key = "Type"
  · simp [colGet, setType, List.lookup, h]
  · have hb : (key == "Type") = false := by simpa using h
    simp [colGet, setType, List.lookup, h, hb]

/-- `ParseColumn` reads the type only through its lower-cased form. -/
theorem ParseColumn_congr (U : UnicodeTables) (c1 c2 : Column)
    (hk : ∀ key, key ≠ "Type" → colGet c1 key = colGet c2 key)
    (ht : ToLower U (colGet c1 "Type") = ToLower U (colGet c2 "Type")) :
    ParseColumn U c1 = ParseColumn U c2 := by
  simp only [ParseColumn, columnGoType, columnTags, resolveType, columnTp, ht,
    hk "Field" (by decide), hk "Null" (by decide), hk "Key" (by decide),
    hk "Extra" (by decide), hk "Default" (by decide)]

theorem ParseColumn_setType_congr (U : UnicodeTables) (column : Column) (t : String)
    (h : ToLower U t = ToLower U (colGet column "Type")) :
    ParseColumn U (setType column t) = ParseColumn U column := by
  apply ParseColumn_congr
  · intro key hkey
    simp [colGet_setType, hkey]
  · simpa [colGet_setType] using h

set_option maxRecDepth 100000 in
theorem ascii_case_table : ∀ n, n < 128 →
    (unicodeToUpper (fun r => r) (Char.ofNat n)).toNat < 128
    ∧ unicodeToLower plainTables (unicodeToUpper (fun r => r) (Char.ofNat n))
        = unicodeToLower plainTables (Char.ofNat n) := by
  decide

theorem unicodeToUpper_ascii (upper : Char → Char) (c : Char) (h : c.toNat < 128) :
    unicodeToUpper upper c = unicodeToUpper (fun r => r) c := by
  have h2 : c.toNat ≤ 0x7F := by omega
  simp [unicodeToUpper, h2]

theorem lower_upper_ascii (U : UnicodeTables) (upper : Char → Char) (c : Char)
    (h : c.toNat ≤ 0x7F) :
    unicodeToLower U (unicodeToUpper upper c) = unicodeToLower U c := by
  have h2 : c.toNat < 128 := by omega
  obtain ⟨h3, h4⟩ := ascii_forall (fun c =>
    (unicodeToUpper (fun r => r) c).toNat < 128
    ∧ unicodeToLower plainTables (unicodeToUpper (fun r => r) c)
        = unicodeToLower plainTables c) ascii_case_table c h2
  rw [unicodeToUpper_ascii upper c h2, unicodeToLower_ascii U _ h3, h4,
    ← unicodeToLower_ascii U c h2]

set_option maxRecDepth 100000 in
theorem ascii_lower_table : ∀ n, n < 128 →
    unicodeToLower plainTables (unicodeToLower plainTables (Char.ofNat n))
      = unicodeToLower plainTables (Char.ofNat n) := by
  decide

theorem plainTables_lower_idem (c : Char) :
    unicodeToLower plainTables (unicodeToLower plainTables c) = unicodeToLower plainTables c := by
  by_cases h : c.toNat < 128
  · exact ascii_forall (fun c => unicodeToLower plainTables (unicodeToLower plainTables c)
      = unicodeToLower plainTables c) ascii_lower_table c h
  · have h2 : ¬ c.toNat ≤ 0x7F := by omega
    have e : unicodeToLower plainTables c = c := by simp [unicodeToLower, h2, plainTables]
    rw [e, e]

/-- C16 as stated fails for the upper-cased form: with case tables that agree
with Unicode at U+0131 (the dotless i is lower case and its upper case is `I`),
the nullable column `flags set('ı','b')` gets the tag `set('ı','b')`, and
after its type is upper-cased to `SET('I','B')` the tag `set('i','b')`. -/
theorem ParseColumn_upper_case_counterexample :
    (∀ (U : UnicodeTables) (upper : Char → Char),
        unicodeToLower U 'ı' = 'ı' → unicodeToUpper upper 'ı' = 'I' →
        ParseColumn U dotlessColumn
            = ["Flags", "sql.NullString", "`orm:\"set('ı','b')\"`"]
        ∧ ParseColumn U (setType dotlessColumn (ToUpper upper (colGet dotlessColumn "Type")))
            = ["Flags", "sql.NullString", "`orm:\"set('i','b')\"`"])
    ∧ (unicodeToLower plainTables 'ı' = 'ı' ∧ unicodeToUpper dotlessUpper 'ı' = 'I')
    ∧ ParseColumn plainTables
          (setType dotlessColumn (ToUpper dotlessUpper (colGet dotlessColumn "Type")))
        ≠ ParseColumn plainTables dotlessColumn := by
  refine ⟨fun U upper h1 h2 => ⟨?_, ?_⟩, ⟨by decide, by decide⟩, by decide⟩
  · have e0 : columnTp U dotlessColumn
        = ⟨['s', 'e', 't', '(', '\'', unicodeToLower U 'ı', '\'', ',', '\'', 'b', '\'', ')']⟩ :=
      rfl
    rw [h1] at e0
    unfold ParseColumn columnGoType columnTags resolveType
    rw [e0]
    rfl
  · have e0 : ToUpper upper (colGet dotlessColumn "Type")
        = ⟨['S', 'E', 'T', '(', '\'', unicodeToUpper upper 'ı', '\'', ',', '\'', 'B', '\'', ')']⟩ :=
      rfl
    rw [h2] at e0
    rw [e0]
    rfl

/-- C16, amended: `ParseColumn` reads the type only through its lower-cased
form.  With a lower-case table on which lower-casing twice is lower-casing
once, replacing `Type` by its lower-cased form leaves the three outputs
unchanged; replacing it by its upper-cased form does so when every code point
of `Type` lower-cases to the same code point before and after upper-casing,
which every ASCII code point does.  `INT(11)` resolves like `int(11)` and
`VARCHAR(255)` like `varchar(255)`. -/
theorem ParseColumn_case_insensitive (U : UnicodeTables) (upper : Char → Char)
    (column : Column)
    (hU : ∀ c : Char, unicodeToLower U (unicodeToLower U c) = unicodeToLower U c) :
    ParseColumn U (setType column (ToLower U (colGet column "Type"))) = ParseColumn U column
    ∧ ((∀ c ∈ (colGet column "Type").data,
          unicodeToLower U (unicodeToUpper upper c) = unicodeToLower U c) →
        ParseColumn U (setType column (ToUpper upper (colGet column "Type")))
          = ParseColumn U column)
    ∧ ((∀ c ∈ (colGet column "Type").data, c.toNat ≤ 0x7F) →
        ParseColumn U (setType column (ToUpper upper (colGet column "Type")))
          = ParseColumn U column)
    ∧ ParseColumn U (setType column "INT(11)") = ParseColumn U (setType column "int(11)")
    ∧ ParseColumn U (setType column "VARCHAR(255)")
        = ParseColumn U (setType column "varchar(255)") := by
  have up : (∀ c ∈ (colGet column "Type").data,
        unicodeToLower U (unicodeToUpper upper c) = unicodeToLower U c) →
      ParseColumn U (setType column (ToUpper upper (colGet column "Type")))
        = ParseColumn U column := by
    intro h
    apply ParseColumn_setType_congr
    apply String.ext
    simp only [ToLower, ToUpper, List.map_map]
    exact List.map_congr_left (fun c hc => h c hc)
  have ex : ∀ a b : String, ToLower U a = ToLower U b →
      ParseColumn U (setType column a) = ParseColumn U (setType column b) := by
    intro a b h
    apply ParseColumn_congr
    · intro key hkey
      simp [colGet_setType, hkey]
    · simpa [colGet_setType] using h
  refine ⟨?_, up, fun h => up (fun c hc => lower_upper_ascii U upper c (h c hc)),
    ex _ _ rfl, ex _ _ rfl⟩
  apply ParseColumn_setType_congr
  apply String.ext
  simp only [ToLower, List.map_map]
  exact List.map_congr_left (fun c _ => hU c)

/-- C16, amended, at `id INT(11)`: lower- and upper-casing the type of the
record leaves its outputs unchanged. -/
theorem ParseColumn_case_insensitive_witness :
    ParseColumn plainTables (setType idColumn (ToLower plainTables (colGet idColumn "Type")))
        = ParseColumn plainTables idColumn
    ∧ ParseColumn plainTables (setType idColumn (ToUpper dotlessUpper (colGet idColumn "Type")))
        = ParseColumn plainTables idColumn :=
  ⟨(ParseColumn_case_insensitive plainTables dotlessUpper idColumn plainTables_lower_idem).1,
    (ParseColumn_case_insensitive plainTables dotlessUpper idColumn plainTables_lower_idem).2.2.1
      (by decide)⟩

/-- The scan returns the fallback when no entry matches, and otherwise an
entry of the table whose prefix starts the type. -/
theorem scanPrefix_spec (tp : String) (table : List (String × String)) :
    ((∀ item ∈ table, HasPrefix tp item.1 = false)
        ∧ scanPrefix tp table = ("varchar", "string"))
    ∨ (scanPrefix tp table ∈ table ∧ HasPrefix tp (scanPrefix tp table).1 = true) := by
  induction table with
  | nil => exact Or.inl ⟨fun _ h => absurd h (List.not_mem_nil _), rfl⟩
  | cons item rest ih =>
    by_cases h : HasPrefix tp item.1 = true
    · right
      simp only [scanPrefix, h, if_true]
      exact ⟨List.mem_cons_self _ _, trivial⟩
    · have hf : HasPrefix tp item.1 = false := by simpa using h
      simp only [scanPrefix, hf, Bool.false_eq_true, if_false]
      rcases ih with ⟨h1, h2⟩ | ⟨h1, h2⟩
      · left
        refine ⟨fun i hi => ?_, h2⟩
        rcases List.mem_cons.1 hi with rfl | hi
        · exact hf
        · exact h1 i hi
      · right
        exact ⟨List.mem_cons_of_mem _ h1, h2⟩

theorem HasPrefix_comparable (tp p q : String) (hp : HasPrefix tp p = true)
    (hq : HasPrefix tp q = true) : HasPrefix p q = true ∨ HasPrefix q p = true := by
  by_contra hc
  simp only [not_or, Bool.not_eq_true] at hc
  have := HasPrefix_excludes tp p q hp hc.1 hc.2
  rw [hq] at this
  exact absurd this (by decide)

set_option maxRecDepth 1000000 in
theorem prefixMap_overlap : ∀ a ∈ prefixMap, ∀ b ∈ prefixMap,
    (HasPrefix a.1 b.1 = true ∨ HasPrefix b.1 a.1 = true) →
      a.2 = b.2
      ∧ ((a.1 = "char" ∨ a.1 = "varchar") ↔ (b.1 = "char" ∨ b.1 = "varchar"))
      ∧ (a = b ∨ (a.1 = "date" ∧ b.1 = "datetime") ∨ (a.1 = "datetime" ∧ b.1 = "date")) := by
  decide

/-- Two entries of `prefixMap` that both match a type have the same target
type and agree on being of class `char` or `varchar`. -/
theorem prefixMap_matches_agree (tp : String) (a b : String × String)
    (ha : a ∈ prefixMap) (hb : b ∈ prefixMap)
    (hpa : HasPrefix tp a.1 = true) (hpb : HasPrefix tp b.1 = true) :
    a.2 = b.2
    ∧ ((a.1 = "char" ∨ a.1 = "varchar") ↔ (b.1 = "char" ∨ b.1 = "varchar"))
    ∧ (a = b ∨ (a.1 = "date" ∧ b.1 = "datetime") ∨ (a.1 = "datetime" ∧ b.1 = "date")) :=
  prefixMap_overlap a ha b hb (HasPrefix_comparable tp a.1 b.1 hpa hpb)

/-- The scan over a permutation of `prefixMap` selects the same target type and
the same answer to "is the class `char` or `varchar`" as the scan over
`prefixMap`. -/
theorem scanPrefix_perm (tp : String) (table : List (String × String))
    (hperm : table.Perm prefixMap) :
    (scanPrefix tp table).2 = (scanPrefix tp prefixMap).2
    ∧ typeTags (scanPrefix tp table).1 tp = typeTags (scanPrefix tp prefixMap).1 tp := by
  rcases scanPrefix_spec tp table with ⟨h1, h2⟩ | ⟨h1, h2⟩
  · have h0 : scanPrefix tp prefixMap = ("varchar", "string") :=
      scanPrefix_none tp prefixMap (fun i hi => h1 i (hperm.mem_iff.2 hi))
    rw [h2, h0]
    exact ⟨rfl, rfl⟩
  · rcases scanPrefix_spec tp prefixMap with ⟨g1, _⟩ | ⟨g1, g2⟩
    · have := g1 _ (hperm.mem_iff.1 h1)
      rw [h2] at this
      exact absurd this (by decide)
    · obtain ⟨e1, e2, _⟩ :=
        prefixMap_matches_agree tp _ _ (hperm.mem_iff.1 h1) g1 h2 g2
      refine ⟨e1, ?_⟩
      simp only [typeTags, e2]

theorem scanPrefix_ne_datetime (tp : String) : (scanPrefix tp prefixMap).1 ≠ "datetime" := by
  intro h
  rcases scanPrefix_spec tp prefixMap with ⟨_, h2⟩ | ⟨_, h2⟩
  · rw [h2] at h
    exact absurd h (by decide)
  · rw [h] at h2
    have hd := scanPrefix_date tp (HasPrefix_trans tp "datetime" "date" h2 (by decide))
    rw [hd] at h
    exact absurd h (by decide)

/-- C17: the result of `ParseColumn` does not depend on the order of the prefix
table.  Entries of the table that match one type string have the same target
type and agree on being of class `char` or `varchar`, and two different ones
are `date` and `datetime`; so `ParseColumn` run with any permutation of the
fourteen entries returns the same three strings for every record.  With the
table in its own order the `datetime` entry is never selected. -/
theorem ParseColumn_order_independent (U : UnicodeTables) (column : Column)
    (table : List (String × String)) (hperm : table.Perm prefixMap) :
    ParseColumnWith table U column = ParseColumn U column
    ∧ ParseColumnWith prefixMap U column = ParseColumn U column
    ∧ (∀ (tp : String) (a b : String × String), a ∈ prefixMap → b ∈ prefixMap →
        HasPrefix tp a.1 = true → HasPrefix tp b.1 = true →
        a.2 = b.2
        ∧ ((a.1 = "char" ∨ a.1 = "varchar") ↔ (b.1 = "char" ∨ b.1 = "varchar"))
        ∧ (a = b ∨ (a.1 = "date" ∧ b.1 = "datetime") ∨ (a.1 = "datetime" ∧ b.1 = "date")))
    ∧ (resolveType U column).1 ≠ "datetime" := by
  refine ⟨?_, rfl, fun tp a b ha hb hpa hpb => prefixMap_matches_agree tp a b ha hb hpa hpb,
    scanPrefix_ne_datetime _⟩
  obtain ⟨e1, e2⟩ := scanPrefix_perm (columnTp U column) table hperm
  simp only [ParseColumnWith, ParseColumn, columnGoType, columnTags, resolveType, e1, e2]

/-- C17 at the reversed table and the nullable `created_at datetime`: the scan
of the reversed table selects the `datetime` entry, and the three outputs are
those of `ParseColumn`. -/
theorem ParseColumn_order_independent_witness :
    ParseColumnWith prefixMap.reverse plainTables createdAtColumn
        = ParseColumn plainTables createdAtColumn
    ∧ (scanPrefix (columnTp plainTables createdAtColumn) prefixMap.reverse).1 = "datetime"
    ∧ (scanPrefix (columnTp plainTables createdAtColumn) prefixMap).1 = "date" :=
  ⟨(ParseColumn_order_independent plainTables createdAtColumn prefixMap.reverse
      (List.reverse_perm prefixMap)).1, by decide, by decide⟩

end XormGen
